import Mathlib

/-!
Verification development for the Toya decoder client
(`custom_components/toya_decoder`).  The repository ships the same client
twice (flat `api.py` and the `api/` package) with identical logic; the
definitions below embed that shared logic.  Python's dynamically typed
response values are modelled by the mutual inductive `PyVal`; Python
functions over them become total Lean functions.  Unicode-sensitive
Python primitives (`str.lower`, `str.strip`, `str.isdigit`,
`html.unescape`) are modelled on their ASCII / common-entity behaviour,
which covers every value the client and the claims exercise.
-/

/-- Python whitespace characters recognised by `str.strip` (ASCII part). -/
def pyIsSpace (c : Char) : Bool :=
  c = ' ' || c = '\t' || c = '\n' || c = '\x0d' || c = '\x0b' || c = '\x0c'

/-- Left-then-right whitespace strip on a character list (`str.strip`). -/
def pyStripL (l : List Char) : List Char :=
  ((l.dropWhile pyIsSpace).reverse.dropWhile pyIsSpace).reverse

/-- String version of `str.strip`. -/
def pyStrip (s : String) : String :=
  String.mk (pyStripL s.data)

/-- ASCII lower-casing, modelling `str.lower`. -/
def pyLower (s : String) : String :=
  String.mk (s.data.map Char.toLower)

/-- Exact list-prefix test on characters. -/
def startsWithCS : List Char → List Char → Bool
  | [], _ => true
  | _ :: _, [] => false
  | c :: cs, d :: ds => c = d && startsWithCS cs ds

/-- Substring containment on character lists (`needle` inside `hay`). -/
def containsSub : List Char → List Char → Bool
  | [], n => n.isEmpty
  | h :: t, n => startsWithCS n (h :: t) || containsSub t n

/-- Decimal digit test (`0`-`9`), the ASCII core of `str.isdigit`. -/
def pyIsDigitChar (c : Char) : Bool :=
  48 ≤ c.toNat && c.toNat ≤ 57

/-- Python `str.isdigit`: non-empty and all digits. -/
def pyIsDigit (s : String) : Bool :=
  !s.data.isEmpty && s.data.all pyIsDigitChar

/-- Numeric value of an all-digit character list, or `none`. -/
def digitsToNat : List Char → Option Nat
  | [] => Option.none
  | ds =>
    if ds.all pyIsDigitChar then
      some (ds.foldl (fun acc c => 10 * acc + (c.toNat - 48)) 0)
    else Option.none

/-- Python `int(s)` on a string: strip, optional sign, decimal digits. -/
def pyParseInt (s : String) : Option Int :=
  match pyStripL s.data with
  | '+' :: ds => (digitsToNat ds).map Int.ofNat
  | '-' :: ds => (digitsToNat ds).map (fun n => -(Int.ofNat n))
  | ds => (digitsToNat ds).map Int.ofNat

mutual
/-- Dynamically typed Python value as seen in decoder RPC responses:
the float-free fragment.  Float values, which the XML-RPC layer can
also deliver, are modelled separately by `PyValX` where they change
behaviour (the status coercion of the device parser). -/
inductive PyVal where
  | none
  | str (s : String)
  | int (n : Int)
  | bool (b : Bool)
  | list (xs : PyList)
  | dict (kvs : PyDict)

/-- List of Python values (models both `list` and `tuple`). -/
inductive PyList where
  | nil
  | cons (hd : PyVal) (tl : PyList)

/-- String-keyed Python dict as an association list (insertion order). -/
inductive PyDict where
  | nil
  | cons (k : String) (v : PyVal) (tl : PyDict)
end

/-- Build a `PyList` from a Lean list. -/
def PyList.ofList : List PyVal → PyList
  | [] => .nil
  | v :: t => .cons v (PyList.ofList t)

/-- Build a `PyDict` from a Lean association list. -/
def PyDict.ofList : List (String × PyVal) → PyDict
  | [] => .nil
  | (k, v) :: t => .cons k v (PyDict.ofList t)

/-- Shorthand for a Python list value. -/
def pList (xs : List PyVal) : PyVal := .list (PyList.ofList xs)

/-- Shorthand for a Python dict value. -/
def pDict (kvs : List (String × PyVal)) : PyVal := .dict (PyDict.ofList kvs)

/-- Python `dict.get(k)` — first binding of `k`, else Python `None`. -/
def PyDict.get : PyDict → String → PyVal
  | .nil, _ => .none
  | .cons k v tl, key => if k = key then v else PyDict.get tl key

/-- Python `dict.get(k, d)` with an explicit default. -/
def PyDict.getD : PyDict → String → PyVal → PyVal
  | .nil, _, d => d
  | .cons k v tl, key, d => if k = key then v else PyDict.getD tl key d

/-- Python `k in d` membership test. -/
def PyDict.hasKey : PyDict → String → Bool
  | .nil, _ => false
  | .cons k _ tl, key => k = key || PyDict.hasKey tl key

/-- Test for the Python `None` constructor. -/
def PyVal.isNone : PyVal → Bool
  | .none => true
  | _ => false

/-- Python truthiness of a value. -/
def pyTruthy : PyVal → Bool
  | .none => false
  | .str s => !(s == "")
  | .int n => !(n == 0)
  | .bool b => b
  | .list .nil => false
  | .list (.cons _ _) => true
  | .dict .nil => false
  | .dict (.cons _ _ _) => true

/-- Python `a or b` on values: `a` when truthy, else `b`. -/
def pyOr (a b : PyVal) : PyVal :=
  if pyTruthy a then a else b

/-- Escape one character of a Python string repr quoted by `q`. -/
def reprEscChar (q c : Char) : List Char :=
  if c = '\\' then ['\\', '\\']
  else if c = q then ['\\', q]
  else [c]

/-- Python `repr` of a string (quote choice and escaping; control
characters, which the decoder payloads do not contain, are left as-is). -/
def pyReprStr (s : String) : String :=
  if s.data.contains '\'' && !(s.data.contains '"') then
    String.mk ('"' :: s.data.flatMap (reprEscChar '"') ++ ['"'])
  else
    String.mk ('\'' :: s.data.flatMap (reprEscChar '\'') ++ ['\''])

mutual
/-- Python `str()` of a value. -/
def pyStr : PyVal → String
  | .none => "None"
  | .str s => s
  | .int n => toString n
  | .bool b => if b then "True" else "False"
  | .list xs => "[" ++ pyStrList xs ++ "]"
  | .dict kvs => "\x7b" ++ pyStrDict kvs ++ "\x7d"

/-- Python `repr()` of a value (differs from `str` only on strings). -/
def pyRepr : PyVal → String
  | .str s => pyReprStr s
  | .none => "None"
  | .int n => toString n
  | .bool b => if b then "True" else "False"
  | .list xs => "[" ++ pyStrList xs ++ "]"
  | .dict kvs => "\x7b" ++ pyStrDict kvs ++ "\x7d"

/-- Comma-joined reprs of list elements. -/
def pyStrList : PyList → String
  | .nil => ""
  | .cons v .nil => pyRepr v
  | .cons v (.cons w tl) => pyRepr v ++ ", " ++ pyStrList (.cons w tl)

/-- Comma-joined `key: value` reprs of dict entries. -/
def pyStrDict : PyDict → String
  | .nil => ""
  | .cons k v .nil => pyReprStr k ++ ": " ++ pyRepr v
  | .cons k v (.cons k' w tl) =>
      pyReprStr k ++ ": " ++ pyRepr v ++ ", " ++ pyStrDict (.cons k' w tl)
end

/-- Python `int(x)` over a dynamic value (`TypeError` on non-numeric
shapes becomes `none`). -/
def pyIntOf : PyVal → Option Int
  | .int n => some n
  | .bool b => some (if b then 1 else 0)
  | .str s => pyParseInt s
  | _ => Option.none

/-!
Fault classification (`auth.py`: `_extract_fault_payload`,
`is_auth_fault_message`, `_is_auth_fault`, `raise_if_auth_fault`).
-/

/-- Text component of a fault payload: Python `None` or a string. -/
def faultText (tv : PyVal) : Option String :=
  match tv with
  | .none => Option.none
  | v => some (pyStr v)

/-- Truthiness of the optional fault text (`None` and `""` are falsy). -/
def textTruthy : Option String → Bool
  | Option.none => false
  | some s => !(s == "")

mutual
/-- Source `_extract_fault_payload`: fault code and message from a
response, probing the known key-name variants and recursing through
sequences.  The code component keeps the raw Python value (`PyVal.none`
models Python `None`). -/
def extract_fault_payload : PyVal → PyVal × Option String
  | .dict kvs =>
      let code := pyOr (pyOr (kvs.get "faultCode") (kvs.get "faultcode"))
        (kvs.get "fault_code")
      let tv := pyOr (pyOr (pyOr (kvs.get "faultString") (kvs.get "faultstring"))
        (kvs.get "fault_string")) (kvs.get "message")
      (code, faultText tv)
  | .list xs => extractFaultList xs
  | _ => (.none, Option.none)

/-- Sequence case of `_extract_fault_payload`: first element whose
payload has a non-`None` code or a truthy message. -/
def extractFaultList : PyList → PyVal × Option String
  | .nil => (.none, Option.none)
  | .cons v tl =>
      match extract_fault_payload v with
      | (.none, t) => if textTruthy t then (.none, t) else extractFaultList tl
      | (c, t) => (c, t)
end

/-- Source `is_auth_fault_message`: case-insensitive substring test. -/
def is_auth_fault_message (t : Option String) : Bool :=
  match t with
  | Option.none => false
  | some s =>
      if s == "" then false
      else
        let lowered := (pyLower s).data
        containsSub lowered "not author".data || containsSub lowered "unauthor".data

/-- Source `_is_auth_fault`: response encodes an authentication fault. -/
def is_auth_fault (res : PyVal) : Bool :=
  let ct := extract_fault_payload res
  if ct.1.isNone && !textTruthy ct.2 then false
  else if is_auth_fault_message ct.2 then true
  else pyStr ct.1 == "2"

/-!
Token extraction (`auth.py`: `_normalize_token`,
`_extract_token_from_value`, `extract_token`).
-/

/-- Split a character list on every occurrence of `c` (Python
`str.split(c)`, keeping empty parts). -/
def splitOnCharAll (c : Char) : List Char → List (List Char)
  | [] => [[]]
  | d :: rest =>
      let r := splitOnCharAll c rest
      if d = c then [] :: r
      else
        match r with
        | [] => [[d]]
        | h :: t => (d :: h) :: t

/-- Join character lists with the separator `c` (Python `c.join`). -/
def joinWithChar (c : Char) : List (List Char) → List Char
  | [] => []
  | [h] => h
  | h :: h' :: t => h ++ c :: joinWithChar c (h' :: t)

/-- Source `_normalize_token` on a character list: strip, drop a
`key=` prefix (everything up to the first `=`), drop one trailing `;`,
drop one layer of surrounding double quotes. -/
def normTokL (raw : List Char) : List Char :=
  let token := pyStripL raw
  if token.isEmpty then token
  else
    let parts := splitOnCharAll '=' token
    let token :=
      if 2 ≤ parts.length then pyStripL (joinWithChar '=' (parts.drop 1))
      else token
    let token :=
      if token.getLast? = some ';' then pyStripL token.dropLast
      else token
    if token.head? = some '"' && token.getLast? = some '"' && 2 ≤ token.length then
      (token.drop 1).dropLast
    else token

/-- Source `_normalize_token` on strings. -/
def normalize_token (raw : String) : String :=
  String.mk (normTokL raw.data)

/-- Normalize a scalar candidate and turn falsy results into `None`
(the `return token or None` in `_extract_token_from_value`). -/
def normTokOrNone (raw : String) : Option String :=
  let t := normalize_token raw
  if t == "" then Option.none else some t

mutual
/-- Source `_extract_token_from_value`: recursive search for a
token-like value.  The fixed priority-key loop of the dict case is
unrolled over its six keys. -/
def extract_token_from_value : PyVal → Option String
  | .none => Option.none
  | .str s => normTokOrNone s
  | .int n => normTokOrNone (toString n)
  | .bool b => normTokOrNone (if b then "True" else "False")
  | .list xs => extractTokList xs
  | .dict kvs =>
      match extractTokByKey kvs "token" with
      | some (some t) => some t
      | _ =>
      match extractTokByKey kvs "auth" with
      | some (some t) => some t
      | _ =>
      match extractTokByKey kvs "authToken" with
      | some (some t) => some t
      | _ =>
      match extractTokByKey kvs "authorization" with
      | some (some t) => some t
      | _ =>
      match extractTokByKey kvs "result" with
      | some (some t) => some t
      | _ =>
      match extractTokByKey kvs "value" with
      | some (some t) => some t
      | _ =>
      match kvs with
      | .cons _ v .nil => extract_token_from_value v
      | _ => Option.none

/-- Sequence case: first element yielding a truthy token. -/
def extractTokList : PyList → Option String
  | .nil => Option.none
  | .cons v tl =>
      match extract_token_from_value v with
      | some t => some t
      | Option.none => extractTokList tl

/-- Dict probe: `none` when the key is absent, otherwise the extraction
result for the bound value. -/
def extractTokByKey : PyDict → String → Option (Option String)
  | .nil, _ => Option.none
  | .cons k v tl, key =>
      if k = key then some (extract_token_from_value v)
      else extractTokByKey tl key
end

/-!
Device parsing (`devices.py` / `api.py`: `parse_devices`, `_safe_int`,
`_status_from_value`, `DeviceStatus` from `const.py`).
-/

/-- Decoder power-state enum (`DeviceStatus` in `const.py`). -/
inductive DeviceStatus where
  | OFF
  | ON
  | ATV
  | UNKNOWN
deriving DecidableEq, Repr

/-- Source `_safe_int`: coerce to `int`, returning 0 on failure. -/
def safe_int (v : PyVal) : Int :=
  match pyIntOf v with
  | some n => n
  | Option.none => 0

/-- Source `_status_from_value`: integer-coerce then map to the enum,
unmapped integers giving `UNKNOWN`. -/
def status_from_value (v : PyVal) : DeviceStatus :=
  let numeric := safe_int v
  if numeric = 0 then .OFF
  else if numeric = 1 then .ON
  else if numeric = 2 then .ATV
  else if numeric = -1 then .UNKNOWN
  else .UNKNOWN

/-- Device record (`ToyaDecoderDevice`). -/
structure ToyaDecoderDevice where
  smart_card : String
  status : DeviceStatus
  chip_id : String
deriving DecidableEq, Repr

/-- Channel record (`ToyaDecoderChannel`). -/
structure ToyaDecoderChannel where
  id : String
  number : Option Int
  name : Option String
  thumbnail : Option String
deriving DecidableEq, Repr

/-- Structured loop of `parse_devices`: keyed entries with truthy
`smartcard` and non-`None` `chipid` become devices, others are skipped. -/
def parseDevList : PyList → List ToyaDecoderDevice
  | .nil => []
  | .cons item tl =>
      match item with
      | .dict kvs =>
          let smart_card := kvs.get "smartcard"
          let chip_id := kvs.get "chipid"
          let status := kvs.getD "status" (.int 0)
          if pyTruthy smart_card && !chip_id.isNone then
            ⟨pyStr smart_card, status_from_value status, pyStr chip_id⟩
              :: parseDevList tl
          else parseDevList tl
      | _ => parseDevList tl

/-- Emit a pending token unless it is empty (the `if part` filter). -/
def pushTok (acc : List Char) (l : List (List Char)) : List (List Char) :=
  if acc.isEmpty then l else acc :: l

/-- Delimiter scan of the legacy fallback: `re.split(r"=|, |\}\{|\{|\}")`
with empty parts dropped.  Alternatives are tried at each position in
the pattern's order, scanning left to right: `=`, then `", "` (a comma
not followed by a space is ordinary text), then the two-character
record separator, then each single brace. -/
def splitDevAux : List Char → List Char → List (List Char)
  | [], acc => pushTok acc []
  | [c], acc =>
      if c = '=' || c = '\x7b' || c = '\x7d' then pushTok acc []
      else pushTok (acc ++ [c]) []
  | c :: c2 :: rest, acc =>
      if c = '=' then pushTok acc (splitDevAux (c2 :: rest) [])
      else if c = ',' && c2 = ' ' then pushTok acc (splitDevAux rest [])
      else if c = '\x7d' && c2 = '\x7b' then pushTok acc (splitDevAux rest [])
      else if c = '\x7b' || c = '\x7d' then pushTok acc (splitDevAux (c2 :: rest) [])
      else splitDevAux (c2 :: rest) (acc ++ [c])

/-- Alternating key/value walk of the legacy fallback, emitting a device
each time all of `smartcard`, `chipid` and `status` have been seen. -/
def devTokenLoop : List (List Char) → Bool → List Char →
    Option (List Char) → Option (List Char) → Option DeviceStatus →
    List ToyaDecoderDevice
  | [], _, _, _, _, _ => []
  | p :: rest, true, _, sc, ch, st => devTokenLoop rest false p sc ch st
  | p :: rest, false, key, sc, ch, st =>
      let st' := if key = "status".data then some (status_from_value (.str (String.mk p))) else st
      let sc' := if key = "smartcard".data then some p else sc
      let ch' := if key = "chipid".data then some p else ch
      match sc', st', ch' with
      | some s, some t, some c =>
          ⟨String.mk s, t, String.mk c⟩ :: devTokenLoop rest true key Option.none Option.none Option.none
      | _, _, _ => devTokenLoop rest true key sc' ch' st'

/-- Source `parse_devices`: structured path for keyed sequences, legacy
string-splitting fallback otherwise; falsy input gives the empty list. -/
def parse_devices (res : PyVal) : List ToyaDecoderDevice :=
  if !pyTruthy res then []
  else
    let devices :=
      match res with
      | .dict kvs => if kvs.hasKey "devices" then kvs.get "devices" else res
      | _ => res
    match devices with
    | .list xs => parseDevList xs
    | other =>
        let raw := pyStripL (pyStr other).data
        let raw :=
          if (raw.head? = some '[' && raw.getLast? = some ']')
              || (raw.head? = some '\x7b' && raw.getLast? = some '\x7d') then
            (raw.drop 1).dropLast
          else raw
        let parts := splitDevAux raw []
        devTokenLoop parts true [] Option.none Option.none Option.none

/-!
Channel parsing (`channels.py` / `api.py`: `extract_products_xml`,
`_extract_attr_value`, `parse_channels`).  The two compiled regular
expressions are embedded as piece lists interpreted by a fuelled
backtracking matcher with Python `re` semantics (leftmost search,
greedy/lazy stars, `IGNORECASE` literals).
-/

mutual
/-- Source `extract_products_xml`: normalize a GetProducts response to a
string payload, unwrapping nested `products` keys; other shapes fall
through to Python `str(res)`. -/
def extract_products_xml : PyVal → String
  | .none => ""
  | .str s => s
  | .list xs => pyStrJoin xs
  | .dict kvs => extractPXDict kvs (pyStr (.dict kvs))
  | .int n => pyStr (.int n)
  | .bool b => pyStr (.bool b)

/-- Concatenation `"".join(str(item) for item in res)` of the list case. -/
def pyStrJoin : PyList → String
  | .nil => ""
  | .cons v tl => pyStr v ++ pyStrJoin tl

/-- Dict walk for `extract_products_xml`: recurse into the first
`products` binding, else Python `str(res)` of the whole dict. -/
def extractPXDict : PyDict → String → String
  | .nil, orig => orig
  | .cons k v tl, orig =>
      if k = "products" then extract_products_xml v
      else extractPXDict tl orig
end

/-- Character class of a regex piece. -/
inductive ReAtom where
  | any
  | notCh (c : Char)
deriving DecidableEq, Repr

/-- Atom membership test. -/
def atomMatches : ReAtom → Char → Bool
  | .any, _ => true
  | .notCh c, d => !(d = c)

/-- Regex pieces covering the two patterns the source compiles:
case-insensitive literals, a word boundary after a word character,
greedy/lazy stars, and capturing greedy-plus / lazy-star groups carrying
their accumulated text. -/
inductive RePiece where
  | lit (cs : List Char)
  | wordB
  | starG (a : ReAtom)
  | starL (a : ReAtom)
  | capPlusG (a : ReAtom) (acc : List Char)
  | capStarG (a : ReAtom) (acc : List Char)
  | capStarL (a : ReAtom) (acc : List Char)
deriving DecidableEq, Repr

/-- Case-insensitive literal prefix match (`re.IGNORECASE`). -/
def litMatches : List Char → List Char → Bool
  | [], _ => true
  | _ :: _, [] => false
  | c :: cs, d :: ds => c.toLower = d.toLower && litMatches cs ds

/-- Word character for `\b` (`[A-Za-z0-9_]`). -/
def isWordChar (c : Char) : Bool :=
  (65 ≤ c.toNat && c.toNat ≤ 90) || (97 ≤ c.toNat && c.toNat ≤ 122)
    || (48 ≤ c.toNat && c.toNat ≤ 57) || c = '_'

/-- Backtracking matcher: pieces against a string, accumulating capture
groups in order, returning captures and the unconsumed suffix of the
first (preference-ordered) full match.  Fuel bounds the path depth; each
step consumes a character or retires a piece, so
`pieces.length + s.length + 1` fuel is always sufficient. -/
def matchPs : Nat → List RePiece → List Char → List (List Char) →
    Option (List (List Char) × List Char)
  | 0, _, _, _ => Option.none
  | _ + 1, [], s, caps => some (caps, s)
  | f + 1, .lit cs :: ps, s, caps =>
      if litMatches cs s then matchPs f ps (s.drop cs.length) caps
      else Option.none
  | f + 1, .wordB :: ps, s, caps =>
      match s with
      | [] => matchPs f ps s caps
      | c :: _ => if isWordChar c then Option.none else matchPs f ps s caps
  | f + 1, .starG a :: ps, s, caps =>
      match s with
      | c :: s' =>
          if atomMatches a c then
            match matchPs f (.starG a :: ps) s' caps with
            | some r => some r
            | Option.none => matchPs f ps s caps
          else matchPs f ps s caps
      | [] => matchPs f ps s caps
  | f + 1, .starL a :: ps, s, caps =>
      (match matchPs f ps s caps with
       | some r => some r
       | Option.none =>
         match s with
         | c :: s' =>
             if atomMatches a c then matchPs f (.starL a :: ps) s' caps
             else Option.none
         | [] => Option.none)
  | f + 1, .capPlusG a acc :: ps, s, caps =>
      (match s with
       | c :: s' =>
           if atomMatches a c then matchPs f (.capStarG a (acc ++ [c]) :: ps) s' caps
           else Option.none
       | [] => Option.none)
  | f + 1, .capStarG a acc :: ps, s, caps =>
      (match s with
       | c :: s' =>
           if atomMatches a c then
             match matchPs f (.capStarG a (acc ++ [c]) :: ps) s' caps with
             | some r => some r
             | Option.none => matchPs f ps s (caps ++ [acc])
           else matchPs f ps s (caps ++ [acc])
       | [] => matchPs f ps s (caps ++ [acc]))
  | f + 1, .capStarL a acc :: ps, s, caps =>
      (match matchPs f ps s (caps ++ [acc]) with
       | some r => some r
       | Option.none =>
         match s with
         | c :: s' =>
             if atomMatches a c then matchPs f (.capStarL a (acc ++ [c]) :: ps) s' caps
             else Option.none
         | [] => Option.none)

/-- Attempt a match with sufficient fuel. -/
def reMatch (ps : List RePiece) (s : List Char) :
    Option (List (List Char) × List Char) :=
  matchPs (ps.length + s.length + 1) ps s []

/-- Python `pattern.search`: try the match at each successive start
position, returning the leftmost match's captures and suffix. -/
def reSearchAux : List RePiece → List Char → Option (List (List Char) × List Char)
  | ps, [] => reMatch ps []
  | ps, c :: s' =>
      match reMatch ps (c :: s') with
      | some r => some r
      | Option.none => reSearchAux ps s'

/-- Python `pattern.finditer`: non-overlapping leftmost matches, each
search resuming at the previous match's end. -/
def reFindAllAux : Nat → List RePiece → List Char → List (List (List Char))
  | 0, _, _ => []
  | f + 1, ps, s =>
      match reSearchAux ps s with
      | Option.none => []
      | some (caps, rest) => caps :: reFindAllAux f ps rest

/-- Embedded object pattern
`<object\b[^>]*type="product"[^>]*id="([^"]+)"[^>]*>([\s\S]*?)</object>`. -/
def objectPieces : List RePiece :=
  [.lit "<object".data, .wordB,
   .starG (.notCh '>'),
   .lit "type=\"product\"".data,
   .starG (.notCh '>'),
   .lit "id=\"".data,
   .capPlusG (.notCh '"') [],
   .lit "\"".data,
   .starG (.notCh '>'),
   .lit ">".data,
   .capStarL .any [],
   .lit "</object>".data]

/-- Embedded attribute pattern
`<attr\b[^>]*key="KEY"[^>]*>[\s\S]*?<value>([\s\S]*?)</value>` for a
given key (the keys used contain no regex metacharacters, so
`re.escape` is the identity on them). -/
def attrPieces (key : String) : List RePiece :=
  [.lit "<attr".data, .wordB,
   .starG (.notCh '>'),
   .lit ("key=\"" ++ key ++ "\"").data,
   .starG (.notCh '>'),
   .lit ">".data,
   .starL .any,
   .lit "<value>".data,
   .capStarL .any [],
   .lit "</value>".data]

/-- Named-entity unescape, modelling `html.unescape` on the entity
forms the feed uses (`&amp;` `&lt;` `&gt;` `&quot;` `&apos;`). -/
def htmlUnescapeL : List Char → List Char
  | [] => []
  | '&' :: 'a' :: 'm' :: 'p' :: ';' :: rest => '&' :: htmlUnescapeL rest
  | '&' :: 'l' :: 't' :: ';' :: rest => '<' :: htmlUnescapeL rest
  | '&' :: 'g' :: 't' :: ';' :: rest => '>' :: htmlUnescapeL rest
  | '&' :: 'q' :: 'u' :: 'o' :: 't' :: ';' :: rest => '"' :: htmlUnescapeL rest
  | '&' :: 'a' :: 'p' :: 'o' :: 's' :: ';' :: rest => '\'' :: htmlUnescapeL rest
  | c :: rest => c :: htmlUnescapeL rest

/-- String version of the entity unescape. -/
def htmlUnescape (s : String) : String :=
  String.mk (htmlUnescapeL s.data)

/-- Source `_extract_attr_value`: first attribute match in the block,
its value group stripped and entity-unescaped. -/
def extract_attr_value (body : List Char) (key : String) : Option String :=
  match reSearchAux (attrPieces key) body with
  | some (caps, _) => some (htmlUnescape (pyStrip (String.mk (caps.headD []))))
  | Option.none => Option.none

/-- Python `a or b` over optional strings (`None` and `""` are falsy,
the second operand is returned as-is otherwise). -/
def pyOrStr (a b : Option String) : Option String :=
  match a with
  | some s => if s == "" then b else a
  | Option.none => b

/-- Build one channel from an object match's captures (`id`, body). -/
def channelOfCaps (caps : List (List Char)) : ToyaDecoderChannel :=
  let channelId := String.mk (caps.headD [])
  let body := caps.getD 1 []
  let name := pyOrStr (extract_attr_value body "name")
    (extract_attr_value body "shortTitle")
  let thumbnail := extract_attr_value body "thumbnail"
  let numberRaw := pyOrStr (pyOrStr (pyOrStr (extract_attr_value body "number")
    (extract_attr_value body "channel_number"))
    (extract_attr_value body "lcn"))
    (extract_attr_value body "position")
  let number : Option Int :=
    match numberRaw with
    | some s => if s == "" then Option.none else pyParseInt (pyStrip s)
    | Option.none => Option.none
  ⟨channelId, number, name, thumbnail⟩

/-- Source `parse_channels`: one channel per `<object type="product">`
block found by the embedded pattern. -/
def parse_channels (xml : String) : List ToyaDecoderChannel :=
  (reFindAllAux (xml.data.length + 1) objectPieces xml.data).map channelOfCaps

/-!
Client model (`client.py` / `api.py`: `ToyaDecoderApi`).  Remote calls
are driven by an oracle `Nat → TransportRes` giving the transport-level
outcome of the n-th RPC issued; `_call`'s classification of that outcome
into the error taxonomy is `classify`.  The client's mutable state
(cached token, `_set_version`), the call counter and an event trace are
threaded explicitly; `asyncio.sleep` becomes a trace event.
-/

/-- Transport-level outcome of one XML-RPC invocation: a value, an
`xmlrpc.client.Fault` with its fault string, a `ProtocolError`, or an
`OSError`. -/
inductive TransportRes where
  | val (v : PyVal)
  | fault (faultString : String)
  | protoErr
  | osErr

/-- Error taxonomy (`ToyaDecoderAuthError`, `ToyaDecoderApiError`,
`ToyaDecoderConnectionError`). -/
inductive ApiErr where
  | auth
  | api
  | conn
deriving DecidableEq, Repr

/-- Oracle: transport outcome of the n-th remote call. -/
def Oracle : Type := Nat → TransportRes

/-- Fixed client configuration (credentials, device id, version/model,
inter-keystroke delay; the delay is a rational standing for the float). -/
structure ClientEnv where
  username : String
  password : String
  deviceId : String
  version : String
  model : String
  keyDelay : ℚ

/-- Observable step of a client run: a remote call with its parameters,
or an `asyncio.sleep`. -/
inductive ClientEv where
  | call (method : String) (params : List PyVal)
  | sleep (d : ℚ)

/-- Mutable client world: cached token and `_set_version` (the state),
the number of remote calls issued, and the event trace. -/
structure ClientW where
  token : Option String
  setVersion : Option String
  idx : Nat
  tr : List ClientEv

/-- Truthiness of the cached token (`if self._token:`). -/
def tokenTruthy : Option String → Bool
  | Option.none => false
  | some s => !(s == "")

/-- Classification performed by `_call`: an in-band auth fault raises
the auth error; an `xmlrpc` `Fault` is an auth error for the login
method or an auth-fault message, else an API error; protocol and OS
errors are connection errors. -/
def classify (t : TransportRes) (method : String) : Except ApiErr PyVal :=
  match t with
  | .val v => if is_auth_fault v then .error .auth else .ok v
  | .fault fs =>
      if method == "toyago.GetAuth" || is_auth_fault_message (some fs) then
        .error .auth
      else .error .api
  | .protoErr => .error .conn
  | .osErr => .error .conn

/-- One `_call`: consume the next oracle outcome, classify it, record
the call in the trace. -/
def callRPC (o : Oracle) (method : String) (params : List PyVal)
    (w : ClientW) : Except ApiErr PyVal × ClientW :=
  (classify (o w.idx) method,
   { w with idx := w.idx + 1, tr := w.tr ++ [.call method params] })

/-- Source `_login`: check credentials, `GetAuth`, extract a token,
`SetVersion`, and only then cache the token. -/
def loginM (env : ClientEnv) (o : Oracle) (w : ClientW) :
    Except ApiErr String × ClientW :=
  if env.username == "" || env.password == "" then (.error .auth, w)
  else
    match callRPC o "toyago.GetAuth"
        [.str env.deviceId, .str env.username, .str env.password] w with
    | (.error e, w₁) => (.error e, w₁)
    | (.ok authRes, w₁) =>
        match extract_token_from_value authRes with
        | Option.none => (.error .auth, w₁)
        | some token =>
            if token == "" then (.error .auth, w₁)
            else
              match callRPC o "toyago.SetVersion"
                  [.str env.deviceId, .str (env.version ++ "-" ++ env.model),
                   .str token] w₁ with
              | (.error e, w₂) => (.error e, w₂)
              | (.ok svRes, w₂) =>
                  (.ok token,
                   { w₂ with token := some token,
                             setVersion := some (pyStr svRes) })

/-- Source `async_login`: cached token when truthy, else `_login`. -/
def asyncLogin (env : ClientEnv) (o : Oracle) (w : ClientW) :
    Except ApiErr String × ClientW :=
  match w.token with
  | some t => if t == "" then loginM env o w else (.ok t, w)
  | Option.none => loginM env o w

/-- Recognized remote command names (`REMOTE_COMMANDS` in `const.py`). -/
def REMOTE_COMMANDS : List String :=
  ["playpause", "prev", "last", "audio", "pvr", "stop", "rec", "blue",
   "yellow", "green", "red", "menu", "mute", "list", "0", "1", "2", "3",
   "4", "5", "6", "7", "8", "9", "power", "vod", "epg", "opt", "back",
   "ok", "up", "down", "left", "right", "ffw"]

/-- Source `normalize_cmd`: single digits pass through, other keys are
lower-cased and checked against the fixed command set (`none` models
the raised API error). -/
def normalize_cmd (key : String) : Option String :=
  let text := pyStrip key
  if text.length = 1 && pyIsDigit text then some text
  else
    let cmd := pyLower text
    if REMOTE_COMMANDS.contains cmd then some cmd else Option.none

/-- Source `_send_key`: one `SetStbCmd` call. -/
def sendKeyRPC (env : ClientEnv) (o : Oracle) (token smartCard cmd : String)
    (w : ClientW) : Except ApiErr PyVal × ClientW :=
  callRPC o "toyago.SetStbCmd"
    [.str env.deviceId, .str smartCard, .str cmd, .str token] w

/-- Source `async_send_key`: validate inputs, login, send; on an auth
error clear the cached token, re-login and send exactly once more. -/
def asyncSendKey (env : ClientEnv) (o : Oracle) (smartCard key : String)
    (w : ClientW) : Except ApiErr Unit × ClientW :=
  let sc := pyStrip smartCard
  if sc == "" then (.error .api, w)
  else
    match normalize_cmd key with
    | Option.none => (.error .api, w)
    | some cmd =>
        match asyncLogin env o w with
        | (.error e, w₁) => (.error e, w₁)
        | (.ok token, w₁) =>
            match sendKeyRPC env o token sc cmd w₁ with
            | (.ok _, w₂) => (.ok (), w₂)
            | (.error .auth, w₂) =>
                let w₃ := { w₂ with token := Option.none }
                match asyncLogin env o w₃ with
                | (.error e, w₄) => (.error e, w₄)
                | (.ok token₂, w₄) =>
                    match sendKeyRPC env o token₂ sc cmd w₄ with
                    | (.ok _, w₅) => (.ok (), w₅)
                    | (.error e, w₅) => (.error e, w₅)
            | (.error e, w₂) => (.error e, w₂)

/-- Source `async_set_channel` digit loop: send each digit through
`async_send_key`, sleeping for the configured delay after each press
when the delay is positive. -/
def setChannelLoop (env : ClientEnv) (o : Oracle) (smartCard : String) :
    List Char → ClientW → Except ApiErr Unit × ClientW
  | [], w => (.ok (), w)
  | d :: rest, w =>
      match asyncSendKey env o smartCard (String.mk [d]) w with
      | (.ok _, w₁) =>
          let w₂ :=
            if 0 < env.keyDelay then { w₁ with tr := w₁.tr ++ [.sleep env.keyDelay] }
            else w₁
          setChannelLoop env o smartCard rest w₂
      | (.error e, w₁) => (.error e, w₁)

/-- Source `async_set_channel`: trim, require all digits, then send the
digits left to right. -/
def asyncSetChannel (env : ClientEnv) (o : Oracle) (smartCard channel : String)
    (w : ClientW) : Except ApiErr Unit × ClientW :=
  let digits := pyStrip channel
  if !pyIsDigit digits then (.error .api, w)
  else setChannelLoop env o smartCard digits.data w

/-- Source `_get_pvr_devices`: one `GetPvrDevices` call, parsed. -/
def getPvrDevicesRPC (env : ClientEnv) (o : Oracle) (token : String)
    (w : ClientW) : Except ApiErr (List ToyaDecoderDevice) × ClientW :=
  match callRPC o "toyago.GetPvrDevices" [.str env.deviceId, .str token] w with
  | (.error e, w₁) => (.error e, w₁)
  | (.ok res, w₁) => (.ok (parse_devices res), w₁)

/-- Source `async_get_devices`: login, fetch, and on an auth error clear
the token, re-login and fetch exactly once more. -/
def asyncGetDevices (env : ClientEnv) (o : Oracle) (w : ClientW) :
    Except ApiErr (List ToyaDecoderDevice) × ClientW :=
  match asyncLogin env o w with
  | (.error e, w₁) => (.error e, w₁)
  | (.ok token, w₁) =>
      match getPvrDevicesRPC env o token w₁ with
      | (.ok ds, w₂) => (.ok ds, w₂)
      | (.error .auth, w₂) =>
          let w₃ := { w₂ with token := Option.none }
          match asyncLogin env o w₃ with
          | (.error e, w₄) => (.error e, w₄)
          | (.ok token₂, w₄) => getPvrDevicesRPC env o token₂ w₄
      | (.error e, w₂) => (.error e, w₂)

/-- Product types tried by `_get_channels`, DVB variant first. -/
def product_types : List String := ["channel_dvb", "channel"]

/-- Parameter variants tried by `_get_channels`, in order. -/
def channelVariants : List (Int × Int × Bool) :=
  [(-1, -1, true), (-1, -1, false), (0, 1, false)]

/-- Combined search space of `_get_channels` (the two nested loops). -/
def channelCombos : List (String × Int × Int × Bool) :=
  product_types.flatMap fun pt =>
    channelVariants.map fun v => (pt, v.1, v.2.1, v.2.2)

/-- Parameter list of one `GetProducts` call. -/
def gpParams (env : ClientEnv) (token : String)
    (c : String × Int × Int × Bool) : List PyVal :=
  [.str env.deviceId, .str c.1, pList [], .int c.2.1, .int c.2.2.1,
   pList [.str "0"], .bool c.2.2.2, .str token]

/-- Source `_get_channels` loop: try each combination, skipping empty
and `"[object Object]"` payloads and empty parses, raising the API
error when the space is exhausted. -/
def getChannelsLoop (env : ClientEnv) (o : Oracle) (token : String) :
    List (String × Int × Int × Bool) → ClientW →
    Except ApiErr (List ToyaDecoderChannel) × ClientW
  | [], w => (.error .api, w)
  | c :: rest, w =>
      match callRPC o "toyago.GetProducts" (gpParams env token c) w with
      | (.error e, w₁) => (.error e, w₁)
      | (.ok res, w₁) =>
          let xml := extract_products_xml res
          if xml == "" || xml == "[object Object]" then
            getChannelsLoop env o token rest w₁
          else
            let parsed := parse_channels xml
            if parsed.isEmpty then getChannelsLoop env o token rest w₁
            else (.ok parsed, w₁)

/-- Source `_get_channels` over the full search space. -/
def getChannelsRPC (env : ClientEnv) (o : Oracle) (token : String)
    (w : ClientW) : Except ApiErr (List ToyaDecoderChannel) × ClientW :=
  getChannelsLoop env o token channelCombos w

/-- Source `async_get_channels`: login, search, and on an auth error
clear the token, re-login and search exactly once more. -/
def asyncGetChannels (env : ClientEnv) (o : Oracle) (w : ClientW) :
    Except ApiErr (List ToyaDecoderChannel) × ClientW :=
  match asyncLogin env o w with
  | (.error e, w₁) => (.error e, w₁)
  | (.ok token, w₁) =>
      match getChannelsRPC env o token w₁ with
      | (.ok cs, w₂) => (.ok cs, w₂)
      | (.error .auth, w₂) =>
          let w₃ := { w₂ with token := Option.none }
          match asyncLogin env o w₃ with
          | (.error e, w₄) => (.error e, w₄)
          | (.ok token₂, w₄) => getChannelsRPC env o token₂ w₄
      | (.error e, w₂) => (.error e, w₂)

/-!
Claim-side model definitions: spec-level reformulations and harness
helpers used by the theorems below.
-/

/-- Convert a `PyList` back to a Lean list. -/
def PyList.toList : PyList → List PyVal
  | .nil => []
  | .cons v tl => v :: PyList.toList tl

/-- Per-entry device extraction as claim C7 states it: a keyed entry
with a truthy `smartcard` and a non-`None` `chipid` yields exactly one
device (status defaulting to 0), anything else is dropped. -/
def entryDevice : PyVal → Option ToyaDecoderDevice
  | .dict kvs =>
      if pyTruthy (kvs.get "smartcard") && !(kvs.get "chipid").isNone then
        some ⟨pyStr (kvs.get "smartcard"),
              status_from_value (kvs.getD "status" (.int 0)),
              pyStr (kvs.get "chipid")⟩
      else Option.none
  | _ => Option.none

/-- Characters that never start a delimiter of the legacy device
grammar. -/
def safeDevChar (c : Char) : Bool :=
  !(c = '=' || c = ',' || c = '\x7b' || c = '\x7d')

/-- Field token admissible in the legacy device grammar: non-empty and
free of delimiter characters. -/
def devTokOK (s : String) : Prop :=
  s ≠ "" ∧ ∀ c ∈ s.data, safeDevChar c = true

/-- Serialized body of one legacy device record,
`smartcard=SC, chipid=CH, status=ST`, prepended to `tail`. -/
def devBlobCore (r : String × String × String) (tail : List Char) : List Char :=
  "smartcard".data ++ '=' :: (r.1.data ++ ',' :: ' ' ::
    ("chipid".data ++ '=' :: (r.2.1.data ++ ',' :: ' ' ::
      ("status".data ++ '=' :: (r.2.2.data ++ tail)))))

/-- Record bodies joined by the `\x7d\x7b` record separator. -/
def devBlobInner : List (String × String × String) → List Char
  | [] => []
  | [r] => devBlobCore r []
  | r :: r' :: t => devBlobCore r ('\x7d' :: '\x7b' :: devBlobInner (r' :: t))

/-- Legacy stringified device blob for a record list (empty string for
no records, otherwise one brace layer around the joined bodies). -/
def legacyDevBlob (rs : List (String × String × String)) : String :=
  match rs with
  | [] => ""
  | _ => String.mk ('\x7b' :: (devBlobInner rs ++ ['\x7d']))

/-- Structured keyed response equivalent to the same record list. -/
def structuredDevRes (rs : List (String × String × String)) : PyVal :=
  pList (rs.map fun r =>
    pDict [("smartcard", .str r.1), ("chipid", .str r.2.1),
           ("status", .str r.2.2)])

/-- Token stream the delimiter scan produces for a record list. -/
def devTokens : List (String × String × String) → List (List Char)
  | [] => []
  | r :: t =>
      "smartcard".data :: r.1.data :: "chipid".data :: r.2.1.data ::
        "status".data :: r.2.2.data :: devTokens t

/-- Device list both parser paths should reconstruct. -/
def devRecordsParsed (rs : List (String × String × String)) :
    List ToyaDecoderDevice :=
  rs.map fun r => ⟨r.1, status_from_value (.str r.2.2), r.2.1⟩

/-- Outcome of one `GetProducts` combination in claim C3's terms:
`none` when the payload is empty, `"[object Object]"`, or parses to no
channels; otherwise the non-empty parse. -/
def goodOf (v : PyVal) : Option (List ToyaDecoderChannel) :=
  let xml := extract_products_xml v
  if xml == "" || xml == "[object Object]" then Option.none
  else
    let parsed := parse_channels xml
    if parsed.isEmpty then Option.none else some parsed

/-- Reference search over combination responses: result of the first
good combination and the number of combinations consumed. -/
def searchModel (f : Nat → PyVal) :
    List (String × Int × Int × Bool) →
    Option (List ToyaDecoderChannel) × Nat
  | [] => (Option.none, 0)
  | _ :: rest =>
      match goodOf (f 0) with
      | some p => (some p, 1)
      | Option.none =>
          let r := searchModel (fun j => f (j + 1)) rest
          (r.1, r.2 + 1)

/-- Expected `GetProducts` trace events for a combination list. -/
def gpCalls (env : ClientEnv) (token : String)
    (combos : List (String × Int × Int × Bool)) : List ClientEv :=
  combos.map fun c => .call "toyago.GetProducts" (gpParams env token c)

/-- Event filter for calls of a given method. -/
def evIsCall (m : String) : ClientEv → Bool
  | .call m' _ => m' == m
  | .sleep _ => false

/-- Number of calls of a method in a trace. -/
def countMethod (m : String) (tr : List ClientEv) : Nat :=
  tr.countP (evIsCall m)

/-- Expected per-digit trace of `async_set_channel`: one key press
followed by the configured pause. -/
def digitEvents (env : ClientEnv) (sc tk : String) (d : Char) : List ClientEv :=
  [.call "toyago.SetStbCmd" [.str env.deviceId, .str sc, .str (String.mk [d]), .str tk],
   .sleep env.keyDelay]

/-!
Float-carrying values for the status-coercion path.  XML-RPC `<double>`
elements deliver Python floats; `parse_devices` feeds a float status
through `_safe_int`, whose `except (TypeError, ValueError)` clause does
not catch the `OverflowError` that `int()` raises on an infinite float.
The extension below models exactly that path with explicit exceptions.
-/

/-- Shapes of a Python float that `int()` distinguishes: finite values,
the two infinities, and NaN. -/
inductive PyFloat where
  | finite (q : ℚ)
  | inf
  | negInf
  | nan

/-- Exceptions the `int()` coercion can raise. -/
inductive PyExc where
  | typeError
  | valueError
  | overflowError
deriving DecidableEq, Repr

/-- Scalar value that may also be a float, as handed to the status
coercion. -/
inductive PyValX where
  | base (v : PyVal)
  | float (x : PyFloat)

/-- Python `int(x)` with its exceptions explicit: `TypeError` on
non-numeric shapes, `ValueError` on unparseable strings and NaN,
`OverflowError` on infinite floats, truncation toward zero on finite
floats. -/
def pyIntOfX : PyValX → Except PyExc Int
  | .base v =>
      match pyIntOf v with
      | some n => .ok n
      | Option.none =>
          match v with
          | .str _ => .error .valueError
          | _ => .error .typeError
  | .float (.finite q) => .ok (if 0 ≤ q then ⌊q⌋ else -⌊-q⌋)
  | .float .inf => .error .overflowError
  | .float .negInf => .error .overflowError
  | .float .nan => .error .valueError

/-- Source `_safe_int` with its literal except clause: `TypeError` and
`ValueError` become 0, any other exception propagates. -/
def safe_int_exc (v : PyValX) : Except PyExc Int :=
  match pyIntOfX v with
  | .ok n => .ok n
  | .error .typeError => .ok 0
  | .error .valueError => .ok 0
  | .error e => .error e

/-- Source `_status_from_value` over a possibly-float status, with the
escaping exception made explicit. -/
def status_from_value_exc (v : PyValX) : Except PyExc DeviceStatus :=
  match safe_int_exc v with
  | .error e => .error e
  | .ok numeric =>
      .ok (if numeric = 0 then .OFF
        else if numeric = 1 then .ON
        else if numeric = 2 then .ATV
        else if numeric = -1 then .UNKNOWN
        else .UNKNOWN)

/-- One structured-path entry of `parse_devices` whose status field may
be a float, with the status coercion's exception propagated to the
caller as it is in the source. -/
def entryDeviceExc (smart_card chip_id : PyVal) (status : PyValX) :
    Except PyExc (Option ToyaDecoderDevice) :=
  if pyTruthy smart_card && !chip_id.isNone then
    match status_from_value_exc status with
    | .error e => .error e
    | .ok st => .ok (some ⟨pyStr smart_card, st, pyStr chip_id⟩)
  else .ok Option.none

/-!
Helper lemmas.
-/

/-- Identity of `String.mk` on a string's character data. -/
theorem stringMk_data (s : String) : String.mk s.data = s := rfl

/-- Structured device loop as a `filterMap` of the per-entry function. -/
theorem parseDevList_eq_filterMap (xs : List PyVal) :
    parseDevList (PyList.ofList xs) = xs.filterMap entryDevice := by
  induction xs with
  | nil => simp [PyList.ofList, parseDevList]
  | cons v t ih =>
      cases v <;> simp only [PyList.ofList, parseDevList, List.filterMap_cons, entryDevice, ih]
      case dict kvs =>
        by_cases h : pyTruthy (kvs.get "smartcard") && !(kvs.get "chipid").isNone
        · simp [h]
        · simp [h]

/-- A split on a character absent from the list is the whole list. -/
theorem splitOnCharAll_not_mem (c : Char) (l : List Char)
    (h : c ∉ l) : splitOnCharAll c l = [l] := by
  induction l with
  | nil => simp [splitOnCharAll]
  | cons d t ih =>
      have hd : ¬(d = c) := fun hq => h (hq ▸ List.mem_cons_self d t)
      have ht : c ∉ t := fun hq => h (List.mem_cons_of_mem d hq)
      simp [splitOnCharAll, hd, ih ht]

/-- C1: the fault classifier marks a payload-bearing response as an
auth fault exactly when the message matches "not author"/"unauthor"
case-insensitively or the stringified code equals "2"; in particular
`{faultCode: 2, faultString: "x"}` and
`{faultString: "User not authorized"}` are auth faults while
`{faultCode: 5, faultString: "bad param"}` is not. -/
theorem c1_fault_classifier :
    (∀ res : PyVal,
        ¬((extract_fault_payload res).1.isNone = true ∧
          textTruthy (extract_fault_payload res).2 = false) →
        is_auth_fault res =
          (is_auth_fault_message (extract_fault_payload res).2
            || (pyStr (extract_fault_payload res).1 == "2")))
    ∧ is_auth_fault (pDict [("faultCode", .int 2), ("faultString", .str "x")]) = true
    ∧ is_auth_fault (pDict [("faultString", .str "User not authorized")]) = true
    ∧ is_auth_fault (pDict [("faultCode", .int 5), ("faultString", .str "bad param")]) = false := by
  refine ⟨?_, by decide, by decide, by decide⟩
  intro res h
  have hfalse : ((extract_fault_payload res).1.isNone &&
      !textTruthy (extract_fault_payload res).2) = false := by
    cases h1 : (extract_fault_payload res).1.isNone <;>
      cases h2 : textTruthy (extract_fault_payload res).2 <;> simp_all
  unfold is_auth_fault
  simp only [hfalse]
  cases hm : is_auth_fault_message (extract_fault_payload res).2 <;> simp

/-- Witness for C1 at a concrete payload-bearing response. -/
theorem c1_fault_classifier_witness :
    is_auth_fault (pDict [("faultCode", .str "2")]) =
      (is_auth_fault_message (extract_fault_payload (pDict [("faultCode", .str "2")])).2
        || (pyStr (extract_fault_payload (pDict [("faultCode", .str "2")])).1 == "2")) :=
  c1_fault_classifier.1 (pDict [("faultCode", .str "2")]) (by decide)

/-- C7: on keyed device-list responses (bare sequences and
`devices`-keyed structures alike) the parser yields exactly one device
per entry with a truthy smartcard and present chipid and drops the
rest; the status field defaults to 0, non-numeric statuses coerce to 0
(`OFF`), and unmapped integers map to `UNKNOWN`. -/
theorem c7_structured_devices :
    (∀ xs : List PyVal, parse_devices (pList xs) = xs.filterMap entryDevice)
    ∧ (∀ xs : List PyVal,
        parse_devices (pDict [("devices", pList xs)]) = xs.filterMap entryDevice)
    ∧ (∀ v : PyVal, pyIntOf v = Option.none → status_from_value v = .OFF)
    ∧ (∀ n : Int, n ≠ 0 → n ≠ 1 → n ≠ 2 → n ≠ -1 →
        status_from_value (.int n) = .UNKNOWN) := by
  refine ⟨?_, ?_, ?_, ?_⟩
  · intro xs
    cases xs with
    | nil => simp [parse_devices, pList, PyList.ofList, pyTruthy]
    | cons v t =>
        rw [← parseDevList_eq_filterMap]
        simp [parse_devices, pList, PyList.ofList, pyTruthy]
  · intro xs
    rw [← parseDevList_eq_filterMap]
    simp [parse_devices, pDict, pList, PyDict.ofList, pyTruthy, PyDict.hasKey,
      PyDict.get]
  · intro v h
    simp [status_from_value, safe_int, h]
  · intro n h0 h1 h2 hm1
    simp [status_from_value, safe_int, pyIntOf, h0, h1, h2, hm1]

/-- Witness for C7 at concrete inputs. -/
theorem c7_structured_devices_witness :
    status_from_value (.str "zz") = .OFF ∧ status_from_value (.int 7) = .UNKNOWN :=
  ⟨c7_structured_devices.2.2.1 (.str "zz") (by decide),
   c7_structured_devices.2.2.2 7 (by decide) (by decide) (by decide) (by decide)⟩

/-- C9: the never-raises contract fails on the program — an infinite
float status reaches `_safe_int`, where `int()` raises `OverflowError`
and the `except (TypeError, ValueError)` clause does not catch it, so
`parse_devices` raises on
`[{smartcard: "x", chipid: "y", status: float("inf")}]`.
On float-free values `_safe_int` never raises and agrees with the
total embedding, and unparseable float-free inputs degrade to empty
results as documented. -/
theorem c9_parsers_raise_on_infinite_float :
    safe_int_exc (.float .inf) = .error .overflowError
    ∧ status_from_value_exc (.float .inf) = .error .overflowError
    ∧ entryDeviceExc (.str "x") (.str "y") (.float .inf)
        = .error .overflowError
    ∧ (∀ v : PyVal, safe_int_exc (.base v) = .ok (safe_int v))
    ∧ parse_devices .none = []
    ∧ parse_devices (.str "garbage") = []
    ∧ parse_channels "<object" = [] := by
  refine ⟨rfl, rfl, rfl, ?_, by decide, by decide, by decide⟩
  intro v
  cases hv : pyIntOf v with
  | none => cases v <;> simp_all [safe_int_exc, pyIntOfX, safe_int, pyIntOf]
  | some n => simp [safe_int_exc, pyIntOfX, safe_int, hv]

set_option maxRecDepth 10000 in
/-- C8: the channel parser extracts one channel per product object
block, with the documented name fallback (`name` then `shortTitle`),
the number fallback chain (`number`, `channel_number`, `lcn`,
`position`) parsed as an integer with unparseable values yielding no
number, HTML entities unescaped, and case-insensitive matching. -/
theorem c8_channel_parser_examples :
    parse_channels "<object type=\"product\" id=\"5\"><attr key=\"number\"><value>101</value></attr><attr key=\"name\"><value>News &amp; Weather</value></attr></object>"
      = [⟨"5", some 101, some "News & Weather", Option.none⟩]
    ∧ parse_channels "<object type=\"product\" id=\"7\"><attr key=\"shortTitle\"><value>Alpha</value></attr></object>"
      = [⟨"7", Option.none, some "Alpha", Option.none⟩]
    ∧ parse_channels "<object type=\"product\" id=\"9\"><attr key=\"number\"><value>x1</value></attr></object>"
      = [⟨"9", Option.none, Option.none, Option.none⟩]
    ∧ parse_channels "<object type=\"product\" id=\"3\"><attr key=\"lcn\"><value>42</value></attr></object>"
      = [⟨"3", some 42, Option.none, Option.none⟩]
    ∧ parse_channels "<Object Type=\"Product\" id=\"A\"></Object>"
      = [⟨"A", Option.none, Option.none, Option.none⟩] := by
  refine ⟨by decide, by decide, by decide, by decide, by decide⟩

/-- C5 counterexample: the cleanup is not idempotent — normalizing the
already-normalized token of `"token=ABC=123"` strips it further. -/
theorem c5_normalize_not_idempotent :
    normalize_token (normalize_token "token=ABC=123") ≠
      normalize_token "token=ABC=123" := by decide

/-- C5 (amended): the documented cleanup and search rules hold — the
three examples, first-non-empty search through sequences, the
single-value fallback for keyed structures — and the cleanup is
idempotent on tokens free of `=`, trailing `;`, surrounding quotes and
surrounding whitespace (a second application can strip an
already-normalized token further otherwise). -/
theorem c5_token_extraction :
    extract_token_from_value (.str "token=ABC123;") = some "ABC123"
    ∧ extract_token_from_value (.str "\"xyz\"") = some "xyz"
    ∧ extract_token_from_value (pDict [("result", pDict [("token", .str "t1")])]) = some "t1"
    ∧ (∀ xs : List PyVal,
        extractTokList (PyList.ofList xs) = xs.findSome? extract_token_from_value)
    ∧ (∀ k : String, ∀ v : PyVal,
        extract_token_from_value (pDict [(k, v)]) = extract_token_from_value v)
    ∧ (∀ t : String, '=' ∉ t.data → t.data.getLast? ≠ some ';' →
        pyStripL t.data = t.data →
        ¬(t.data.head? = some '"' ∧ t.data.getLast? = some '"' ∧ 2 ≤ t.data.length) →
        normalize_token t = t) := by
  refine ⟨by decide, by decide, by decide, ?_, ?_, ?_⟩
  · intro xs
    induction xs with
    | nil => simp [PyList.ofList, extractTokList]
    | cons v t ih =>
        simp only [PyList.ofList, extractTokList, List.findSome?_cons, ih]
        cases extract_token_from_value v <;> simp
  · intro k v
    cases hv : extract_token_from_value v with
    | none =>
        simp only [pDict, PyDict.ofList, extract_token_from_value, extractTokByKey, hv]
        repeat' split <;> simp_all
    | some t =>
        simp only [pDict, PyDict.ofList, extract_token_from_value, extractTokByKey, hv]
        repeat' split <;> simp_all
  · intro t hEq hSemi hStrip hQuote
    unfold normalize_token normTokL
    rw [hStrip]
    by_cases hnil : t.data.isEmpty
    · simp only [hnil, if_true]
    · simp only [hnil, if_false, Bool.false_eq_true]
      rw [splitOnCharAll_not_mem '=' t.data hEq]
      have h21 : ¬ (2 ≤ ([t.data] : List (List Char)).length) := by simp
      rw [if_neg h21, if_neg hSemi, if_neg (by simpa using hQuote)]


/-- Witness for C5's conditional idempotence at a clean token. -/
theorem c5_token_extraction_witness : normalize_token "ABC123" = "ABC123" :=
  c5_token_extraction.2.2.2.2.2 "ABC123" (by decide) (by decide) (by decide)
    (by decide)


/-- C10: login caches a token only after the whole sequence succeeds —
every failing run (empty credentials, failed `GetAuth`, no extractable
token, failing `SetVersion`) leaves the cached token and `_set_version`
unchanged, a run returning a token caches exactly that token, and with
no cached token `async_login` re-runs `_login` from scratch. -/
theorem c10_login_caches_only_on_success :
    ∀ (env : ClientEnv) (o : Oracle) (w : ClientW),
      (match loginM env o w with
       | (.error _, w') => w'.token = w.token ∧ w'.setVersion = w.setVersion
       | (.ok t, w') => w'.token = some t)
      ∧ (env.username = "" ∨ env.password = "" → loginM env o w = (.error .auth, w))
      ∧ (w.token = Option.none → asyncLogin env o w = loginM env o w) := by
  intro env o w
  refine ⟨?_, ?_, ?_⟩
  · unfold loginM callRPC
    by_cases hcred : (env.username == "" || env.password == "") = true
    · simp [hcred]
    · simp only [hcred, Bool.false_eq_true, if_false]
      rcases hga : classify (o w.idx) "toyago.GetAuth" with e1 | a
      · simp
      · rcases hex : extract_token_from_value a with _ | tok
        · simp [hex]
        · simp only [hex]
          by_cases htok : (tok == "") = true
          · simp [htok]
          · simp only [htok, Bool.false_eq_true, if_false]
            rcases hsv : classify (o (w.idx + 1)) "toyago.SetVersion" with e2 | sv
            · simp
            · simp
  · intro h
    have hcred : (env.username == "" || env.password == "") = true := by
      rcases h with h | h <;> simp [h]
    unfold loginM
    simp [hcred]
  · intro h
    unfold asyncLogin
    simp [h]

/-- Successful `_login` run: both calls succeed and a token is
extracted, so the token is cached and both calls are traced. -/
theorem loginM_success (env : ClientEnv) (o : Oracle) (w : ClientW)
    (a sv : PyVal) (tok : String)
    (hcred : (env.username == "" || env.password == "") = false)
    (hga : classify (o w.idx) "toyago.GetAuth" = .ok a)
    (hex : extract_token_from_value a = some tok)
    (htok : (tok == "") = false)
    (hsv : classify (o (w.idx + 1)) "toyago.SetVersion" = .ok sv) :
    loginM env o w =
      (.ok tok,
       { token := some tok, setVersion := some (pyStr sv), idx := w.idx + 2,
         tr := w.tr ++
           [.call "toyago.GetAuth"
              [.str env.deviceId, .str env.username, .str env.password],
            .call "toyago.SetVersion"
              [.str env.deviceId, .str (env.version ++ "-" ++ env.model),
               .str tok]] }) := by
  unfold loginM callRPC
  simp [hcred, hga, hex, htok, hsv]

/-- Method counts in a trace are unchanged by `_login`, which issues
only `GetAuth` and `SetVersion` calls. -/
theorem loginM_count (env : ClientEnv) (o : Oracle) (w : ClientW)
    (m : String) (hm1 : m ≠ "toyago.GetAuth") (hm2 : m ≠ "toyago.SetVersion") :
    countMethod m ((loginM env o w).2.tr) = countMethod m w.tr := by
  have e1 : evIsCall m (.call "toyago.GetAuth"
      [.str env.deviceId, .str env.username, .str env.password]) = false := by
    simp [evIsCall, beq_iff_eq]
    exact fun h => hm1 h.symm
  unfold loginM callRPC
  by_cases hcred : (env.username == "" || env.password == "") = true
  · simp [hcred]
  · simp only [hcred, Bool.false_eq_true, if_false]
    rcases hga : classify (o w.idx) "toyago.GetAuth" with e | a
    · simp [countMethod, e1]
    · rcases hex : extract_token_from_value a with _ | tok
      · simp [hex, countMethod, e1]
      · simp only [hex]
        by_cases htok : (tok == "") = true
        · simp [htok, countMethod, e1]
        · have e2 : evIsCall m (.call "toyago.SetVersion"
              [.str env.deviceId, .str (env.version ++ "-" ++ env.model),
               .str tok]) = false := by
            simp [evIsCall, beq_iff_eq]
            exact fun h => hm2 h.symm
          simp only [htok, Bool.false_eq_true, if_false]
          rcases hsv : classify (o (w.idx + 1)) "toyago.SetVersion" with e | sv
          · simp [countMethod, e1, e2]
          · simp [countMethod, e1, e2]

/-- Method counts are likewise unchanged by `async_login`. -/
theorem asyncLogin_count (env : ClientEnv) (o : Oracle) (w : ClientW)
    (m : String) (hm1 : m ≠ "toyago.GetAuth") (hm2 : m ≠ "toyago.SetVersion") :
    countMethod m ((asyncLogin env o w).2.tr) = countMethod m w.tr := by
  unfold asyncLogin
  rcases h : w.token with _ | t
  · exact loginM_count env o w m hm1 hm2
  · by_cases ht : (t == "") = true
    · simp only [ht, if_true]
      exact loginM_count env o w m hm1 hm2
    · simp [ht]

/-- Appending a call bumps that method's count by one. -/
theorem countMethod_append_call (m : String) (tr : List ClientEv)
    (ps : List PyVal) :
    countMethod m (tr ++ [.call m ps]) = countMethod m tr + 1 := by
  simp [countMethod, List.countP_append, List.countP_cons, evIsCall]

/-- The send-key retry never issues a third `SetStbCmd` call. -/
theorem asyncSendKey_count (env : ClientEnv) (o : Oracle) (w : ClientW)
    (sc key : String) :
    countMethod "toyago.SetStbCmd" ((asyncSendKey env o sc key w).2.tr)
      ≤ countMethod "toyago.SetStbCmd" w.tr + 2 := by
  unfold asyncSendKey
  by_cases h1 : (pyStrip sc == "") = true
  · simp only [h1, if_true]
    omega
  · simp only [h1, Bool.false_eq_true, if_false]
    rcases h2 : normalize_cmd key with _ | cmd
    · simp only [h2]
      omega
    · simp only [h2]
      rcases h3 : asyncLogin env o w with ⟨r, w₁⟩
      have hw₁ : countMethod "toyago.SetStbCmd" w₁.tr
          = countMethod "toyago.SetStbCmd" w.tr := by
        have h := asyncLogin_count env o w "toyago.SetStbCmd" (by decide) (by decide)
        rw [h3] at h
        exact h
      cases r with
      | error e => simp only [h3]; omega
      | ok token =>
          simp only [h3]
          unfold sendKeyRPC callRPC
          have hc₂ : countMethod "toyago.SetStbCmd" (w₁.tr ++
              [ClientEv.call "toyago.SetStbCmd"
                [.str env.deviceId, .str (pyStrip sc), .str cmd, .str token]])
              = countMethod "toyago.SetStbCmd" w.tr + 1 := by
            rw [countMethod_append_call, hw₁]
          rcases h4 : classify (o w₁.idx) "toyago.SetStbCmd" with e | v
          · cases e with
            | auth =>
                dsimp only
                rcases h5 : asyncLogin env o
                    { token := Option.none, setVersion := w₁.setVersion,
                      idx := w₁.idx + 1,
                      tr := w₁.tr ++ [ClientEv.call "toyago.SetStbCmd"
                        [.str env.deviceId, .str (pyStrip sc), .str cmd, .str token]] }
                    with ⟨r₂, w₄⟩
                have hw₄ : countMethod "toyago.SetStbCmd" w₄.tr
                    = countMethod "toyago.SetStbCmd" w.tr + 1 := by
                  have h := asyncLogin_count env o
                    { token := Option.none, setVersion := w₁.setVersion,
                      idx := w₁.idx + 1,
                      tr := w₁.tr ++ [ClientEv.call "toyago.SetStbCmd"
                        [.str env.deviceId, .str (pyStrip sc), .str cmd, .str token]] }
                    "toyago.SetStbCmd" (by decide) (by decide)
                  rw [h5] at h
                  simpa [hc₂] using h
                cases r₂ with
                | error e₂ => simp only [h5]; omega
                | ok token₂ =>
                    simp only [h5]
                    rcases h6 : classify (o w₄.idx) "toyago.SetStbCmd" with e₃ | v₂ <;>
                      dsimp only <;> rw [countMethod_append_call, hw₄]
            | api => dsimp only; omega
            | conn => dsimp only; omega
          · dsimp only
            omega

/-- Appending any single event changes a method count by at most one. -/
theorem countMethod_append_le (m : String) (tr : List ClientEv) (ev : ClientEv) :
    countMethod m (tr ++ [ev]) ≤ countMethod m tr + 1 := by
  cases hev : evIsCall m ev <;>
    simp [countMethod, List.countP_append, List.countP_cons, hev]

/-- The channel search issues at most one `GetProducts` call per
combination. -/
theorem getChannelsLoop_count (env : ClientEnv) (o : Oracle) (token : String)
    (combos : List (String × Int × Int × Bool)) (w : ClientW) (m : String) :
    countMethod m ((getChannelsLoop env o token combos w).2.tr)
      ≤ countMethod m w.tr + combos.length := by
  induction combos generalizing w with
  | nil => simp [getChannelsLoop]
  | cons c rest ih =>
      unfold getChannelsLoop callRPC
      have hstep := countMethod_append_le m w.tr
        (.call "toyago.GetProducts" (gpParams env token c))
      rcases h : classify (o w.idx) "toyago.GetProducts" with e | v
      · dsimp only
        simp only [List.length_cons]
        omega
      · dsimp only
        by_cases hx : (extract_products_xml v == ""
            || extract_products_xml v == "[object Object]") = true
        · simp only [hx, if_true]
          have hrec := ih { token := w.token, setVersion := w.setVersion, idx := w.idx + 1, tr := w.tr ++ [.call "toyago.GetProducts" (gpParams env token c)] }
          dsimp only at hrec
          simp only [List.length_cons]
          omega
        · simp only [hx, Bool.false_eq_true, if_false]
          by_cases hp : (parse_channels (extract_products_xml v)).isEmpty
          · simp only [hp, if_true]
            have hrec := ih { token := w.token, setVersion := w.setVersion, idx := w.idx + 1, tr := w.tr ++ [.call "toyago.GetProducts" (gpParams env token c)] }
            dsimp only at hrec
            simp only [List.length_cons]
            omega
          · simp only [hp, Bool.false_eq_true, if_false]
            simp only [List.length_cons]
            omega

/-- With no cached token, `async_login` runs the full `_login`
sequence; under a successful oracle this caches the new token. -/
theorem asyncLogin_fresh_success (env : ClientEnv) (o : Oracle) (w : ClientW)
    (a sv : PyVal) (tok : String)
    (hw : w.token = Option.none)
    (hcred : (env.username == "" || env.password == "") = false)
    (hga : classify (o w.idx) "toyago.GetAuth" = .ok a)
    (hex : extract_token_from_value a = some tok)
    (htok : (tok == "") = false)
    (hsv : classify (o (w.idx + 1)) "toyago.SetVersion" = .ok sv) :
    asyncLogin env o w =
      (.ok tok,
       { token := some tok, setVersion := some (pyStr sv), idx := w.idx + 2,
         tr := w.tr ++
           [.call "toyago.GetAuth"
              [.str env.deviceId, .str env.username, .str env.password],
            .call "toyago.SetVersion"
              [.str env.deviceId, .str (env.version ++ "-" ++ env.model),
               .str tok]] }) := by
  unfold asyncLogin
  rw [hw]
  exact loginM_success env o w a sv tok hcred hga hex htok hsv

/-- With a truthy cached token, `async_login` is a no-op. -/
theorem asyncLogin_cached (env : ClientEnv) (o : Oracle) (w : ClientW)
    (tk : String) (hw : w.token = some tk) (htk : (tk == "") = false) :
    asyncLogin env o w = (.ok tk, w) := by
  unfold asyncLogin
  rw [hw]
  simp [htk]

/-- Send-key first-attempt auth fault: the token is cleared, one
re-login runs, and the call is retried exactly once — the retry's
outcome (success or any error, including a second auth fault) is final. -/
theorem asyncSendKey_auth_retry (env : ClientEnv) (o : Oracle) (w : ClientW)
    (sc key tk cmd : String) (a sv : PyVal) (tok : String)
    (hsc : (pyStrip sc == "") = false)
    (hkey : normalize_cmd key = some cmd)
    (hw : w.token = some tk) (htk : (tk == "") = false)
    (hcred : (env.username == "" || env.password == "") = false)
    (h1 : classify (o w.idx) "toyago.SetStbCmd" = .error .auth)
    (hga : classify (o (w.idx + 1)) "toyago.GetAuth" = .ok a)
    (hex : extract_token_from_value a = some tok)
    (htok : (tok == "") = false)
    (hsv : classify (o (w.idx + 2)) "toyago.SetVersion" = .ok sv) :
    asyncSendKey env o sc key w =
      ((match classify (o (w.idx + 3)) "toyago.SetStbCmd" with
        | .ok _ => .ok ()
        | .error e => .error e),
       { token := some tok, setVersion := some (pyStr sv), idx := w.idx + 4,
         tr := w.tr ++
           [.call "toyago.SetStbCmd"
              [.str env.deviceId, .str (pyStrip sc), .str cmd, .str tk],
            .call "toyago.GetAuth"
              [.str env.deviceId, .str env.username, .str env.password],
            .call "toyago.SetVersion"
              [.str env.deviceId, .str (env.version ++ "-" ++ env.model),
               .str tok],
            .call "toyago.SetStbCmd"
              [.str env.deviceId, .str (pyStrip sc), .str cmd, .str tok]] }) := by
  unfold asyncSendKey
  simp only [hsc, Bool.false_eq_true, if_false, hkey]
  rw [asyncLogin_cached env o w tk hw htk]
  unfold sendKeyRPC callRPC
  dsimp only
  rw [h1]
  dsimp only
  rw [asyncLogin_fresh_success env o
    { token := Option.none, setVersion := w.setVersion, idx := w.idx + 1, tr := w.tr ++ [.call "toyago.SetStbCmd" [.str env.deviceId, .str (pyStrip sc), .str cmd, .str tk]] }
    a sv tok rfl hcred hga hex htok hsv]
  dsimp only
  rcases h4 : classify (o (w.idx + 3)) "toyago.SetStbCmd" with e | v <;>
    simp [h4]

/-- Send-key non-auth errors on the first attempt propagate immediately
with no retry. -/
theorem asyncSendKey_immediate (env : ClientEnv) (o : Oracle) (w : ClientW)
    (sc key tk cmd : String) (e : ApiErr)
    (hsc : (pyStrip sc == "") = false)
    (hkey : normalize_cmd key = some cmd)
    (hw : w.token = some tk) (htk : (tk == "") = false)
    (he : e = .api ∨ e = .conn)
    (h1 : classify (o w.idx) "toyago.SetStbCmd" = .error e) :
    asyncSendKey env o sc key w =
      (.error e,
       { token := w.token, setVersion := w.setVersion, idx := w.idx + 1,
         tr := w.tr ++
           [.call "toyago.SetStbCmd"
              [.str env.deviceId, .str (pyStrip sc), .str cmd, .str tk]] }) := by
  unfold asyncSendKey
  simp only [hsc, Bool.false_eq_true, if_false, hkey]
  rw [asyncLogin_cached env o w tk hw htk]
  unfold sendKeyRPC callRPC
  dsimp only
  rw [h1]
  rcases he with he | he <;> subst he <;> dsimp only

/-- Get-devices first-attempt auth fault: clear, one re-login, one
retry whose outcome is final. -/
theorem asyncGetDevices_auth_retry (env : ClientEnv) (o : Oracle) (w : ClientW)
    (tk : String) (a sv : PyVal) (tok : String)
    (hw : w.token = some tk) (htk : (tk == "") = false)
    (hcred : (env.username == "" || env.password == "") = false)
    (h1 : classify (o w.idx) "toyago.GetPvrDevices" = .error .auth)
    (hga : classify (o (w.idx + 1)) "toyago.GetAuth" = .ok a)
    (hex : extract_token_from_value a = some tok)
    (htok : (tok == "") = false)
    (hsv : classify (o (w.idx + 2)) "toyago.SetVersion" = .ok sv) :
    asyncGetDevices env o w =
      ((match classify (o (w.idx + 3)) "toyago.GetPvrDevices" with
        | .ok v => .ok (parse_devices v)
        | .error e => .error e),
       { token := some tok, setVersion := some (pyStr sv), idx := w.idx + 4,
         tr := w.tr ++
           [.call "toyago.GetPvrDevices" [.str env.deviceId, .str tk],
            .call "toyago.GetAuth"
              [.str env.deviceId, .str env.username, .str env.password],
            .call "toyago.SetVersion"
              [.str env.deviceId, .str (env.version ++ "-" ++ env.model),
               .str tok],
            .call "toyago.GetPvrDevices" [.str env.deviceId, .str tok]] }) := by
  unfold asyncGetDevices
  rw [asyncLogin_cached env o w tk hw htk]
  unfold getPvrDevicesRPC callRPC
  dsimp only
  rw [h1]
  dsimp only
  rw [asyncLogin_fresh_success env o
    { token := Option.none, setVersion := w.setVersion, idx := w.idx + 1, tr := w.tr ++ [.call "toyago.GetPvrDevices" [.str env.deviceId, .str tk]] }
    a sv tok rfl hcred hga hex htok hsv]
  dsimp only
  rcases h4 : classify (o (w.idx + 3)) "toyago.GetPvrDevices" with e | v <;>
    simp [h4]

/-- Get-devices non-auth errors propagate immediately with no retry. -/
theorem asyncGetDevices_immediate (env : ClientEnv) (o : Oracle) (w : ClientW)
    (tk : String) (e : ApiErr)
    (hw : w.token = some tk) (htk : (tk == "") = false)
    (he : e = .api ∨ e = .conn)
    (h1 : classify (o w.idx) "toyago.GetPvrDevices" = .error e) :
    asyncGetDevices env o w =
      (.error e,
       { token := w.token, setVersion := w.setVersion, idx := w.idx + 1,
         tr := w.tr ++
           [.call "toyago.GetPvrDevices" [.str env.deviceId, .str tk]] }) := by
  unfold asyncGetDevices
  rw [asyncLogin_cached env o w tk hw htk]
  unfold getPvrDevicesRPC callRPC
  dsimp only
  rw [h1]
  rcases he with he | he <;> subst he <;> dsimp only

/-- The combination search space in its explicit fixed order. -/
theorem channelCombos_eq :
    channelCombos =
      [("channel_dvb", -1, -1, true), ("channel_dvb", -1, -1, false),
       ("channel_dvb", 0, 1, false), ("channel", -1, -1, true),
       ("channel", -1, -1, false), ("channel", 0, 1, false)] := rfl

/-- A transport-classified error on a combination's call aborts the
channel search immediately. -/
theorem getChannelsLoop_first_error (env : ClientEnv) (o : Oracle)
    (token : String) (c : String × Int × Int × Bool)
    (rest : List (String × Int × Int × Bool)) (w : ClientW) (e : ApiErr)
    (h : classify (o w.idx) "toyago.GetProducts" = .error e) :
    getChannelsLoop env o token (c :: rest) w =
      (.error e,
       { token := w.token, setVersion := w.setVersion, idx := w.idx + 1,
         tr := w.tr ++ [.call "toyago.GetProducts" (gpParams env token c)] }) := by
  unfold getChannelsLoop callRPC
  rw [h]

/-- Get-channels first-call auth fault: clear, one re-login, and one
fresh search whose first call's auth fault is final (no third search). -/
theorem asyncGetChannels_auth_retry (env : ClientEnv) (o : Oracle) (w : ClientW)
    (tk : String) (a sv : PyVal) (tok : String)
    (hw : w.token = some tk) (htk : (tk == "") = false)
    (hcred : (env.username == "" || env.password == "") = false)
    (h1 : classify (o w.idx) "toyago.GetProducts" = .error .auth)
    (hga : classify (o (w.idx + 1)) "toyago.GetAuth" = .ok a)
    (hex : extract_token_from_value a = some tok)
    (htok : (tok == "") = false)
    (hsv : classify (o (w.idx + 2)) "toyago.SetVersion" = .ok sv)
    (h2 : classify (o (w.idx + 3)) "toyago.GetProducts" = .error .auth) :
    asyncGetChannels env o w =
      (.error .auth,
       { token := some tok, setVersion := some (pyStr sv), idx := w.idx + 4,
         tr := w.tr ++
           [.call "toyago.GetProducts"
              (gpParams env tk ("channel_dvb", -1, -1, true)),
            .call "toyago.GetAuth"
              [.str env.deviceId, .str env.username, .str env.password],
            .call "toyago.SetVersion"
              [.str env.deviceId, .str (env.version ++ "-" ++ env.model),
               .str tok],
            .call "toyago.GetProducts"
              (gpParams env tok ("channel_dvb", -1, -1, true))] }) := by
  unfold asyncGetChannels
  rw [asyncLogin_cached env o w tk hw htk]
  dsimp only
  unfold getChannelsRPC
  rw [channelCombos_eq]
  rw [getChannelsLoop_first_error env o tk _ _ w .auth h1]
  dsimp only
  rw [asyncLogin_fresh_success env o
    { token := Option.none, setVersion := w.setVersion, idx := w.idx + 1, tr := w.tr ++ [.call "toyago.GetProducts" (gpParams env tk ("channel_dvb", -1, -1, true))] }
    a sv tok rfl hcred hga hex htok hsv]
  dsimp only
  rw [getChannelsLoop_first_error env o tok _ _ _ .auth h2]
  simp

/-- Get-channels non-auth errors on the first call propagate
immediately with no retry. -/
theorem asyncGetChannels_immediate (env : ClientEnv) (o : Oracle) (w : ClientW)
    (tk : String) (e : ApiErr)
    (hw : w.token = some tk) (htk : (tk == "") = false)
    (he : e = .api ∨ e = .conn)
    (h1 : classify (o w.idx) "toyago.GetProducts" = .error e) :
    asyncGetChannels env o w =
      (.error e,
       { token := w.token, setVersion := w.setVersion, idx := w.idx + 1,
         tr := w.tr ++
           [.call "toyago.GetProducts"
              (gpParams env tk ("channel_dvb", -1, -1, true))] }) := by
  unfold asyncGetChannels
  rw [asyncLogin_cached env o w tk hw htk]
  dsimp only
  unfold getChannelsRPC
  rw [channelCombos_eq]
  rw [getChannelsLoop_first_error env o tk _ _ w e h1]
  rcases he with he | he <;> subst he <;> dsimp only

/-- The get-devices retry never issues a third `GetPvrDevices` call. -/
theorem asyncGetDevices_count (env : ClientEnv) (o : Oracle) (w : ClientW) :
    countMethod "toyago.GetPvrDevices" ((asyncGetDevices env o w).2.tr)
      ≤ countMethod "toyago.GetPvrDevices" w.tr + 2 := by
  unfold asyncGetDevices
  rcases h3 : asyncLogin env o w with ⟨r, w₁⟩
  have hw₁ : countMethod "toyago.GetPvrDevices" w₁.tr
      = countMethod "toyago.GetPvrDevices" w.tr := by
    have h := asyncLogin_count env o w "toyago.GetPvrDevices" (by decide) (by decide)
    rw [h3] at h
    exact h
  cases r with
  | error e => simp only [h3]; omega
  | ok token =>
      simp only [h3]
      unfold getPvrDevicesRPC callRPC
      have hc₂ : countMethod "toyago.GetPvrDevices" (w₁.tr ++
          [ClientEv.call "toyago.GetPvrDevices" [.str env.deviceId, .str token]])
          = countMethod "toyago.GetPvrDevices" w.tr + 1 := by
        rw [countMethod_append_call, hw₁]
      rcases h4 : classify (o w₁.idx) "toyago.GetPvrDevices" with e | v
      · cases e with
        | auth =>
            dsimp only
            rcases h5 : asyncLogin env o
                { token := Option.none, setVersion := w₁.setVersion,
                  idx := w₁.idx + 1,
                  tr := w₁.tr ++ [ClientEv.call "toyago.GetPvrDevices"
                    [.str env.deviceId, .str token]] }
                with ⟨r₂, w₄⟩
            have hw₄ : countMethod "toyago.GetPvrDevices" w₄.tr
                = countMethod "toyago.GetPvrDevices" w.tr + 1 := by
              have h := asyncLogin_count env o
                { token := Option.none, setVersion := w₁.setVersion,
                  idx := w₁.idx + 1,
                  tr := w₁.tr ++ [ClientEv.call "toyago.GetPvrDevices"
                    [.str env.deviceId, .str token]] }
                "toyago.GetPvrDevices" (by decide) (by decide)
              rw [h5] at h
              simpa [hc₂] using h
            cases r₂ with
            | error e₂ => simp only [h5]; omega
            | ok token₂ =>
                simp only [h5]
                rcases h6 : classify (o w₄.idx) "toyago.GetPvrDevices" with e₃ | v₂ <;>
                  dsimp only <;> rw [countMethod_append_call, hw₄]
        | api => dsimp only; omega
        | conn => dsimp only; omega
      · dsimp only
        omega

/-- The get-channels retry runs the six-combination search at most
twice, so at most twelve `GetProducts` calls. -/
theorem asyncGetChannels_count (env : ClientEnv) (o : Oracle) (w : ClientW) :
    countMethod "toyago.GetProducts" ((asyncGetChannels env o w).2.tr)
      ≤ countMethod "toyago.GetProducts" w.tr + 12 := by
  unfold asyncGetChannels
  rcases h3 : asyncLogin env o w with ⟨r, w₁⟩
  have hw₁ : countMethod "toyago.GetProducts" w₁.tr
      = countMethod "toyago.GetProducts" w.tr := by
    have h := asyncLogin_count env o w "toyago.GetProducts" (by decide) (by decide)
    rw [h3] at h
    exact h
  cases r with
  | error e => simp only [h3]; omega
  | ok token =>
      simp only [h3]
      unfold getChannelsRPC
      rcases h4 : getChannelsLoop env o token channelCombos w₁ with ⟨r₂, w₂⟩
      have hw₂ : countMethod "toyago.GetProducts" w₂.tr
          ≤ countMethod "toyago.GetProducts" w.tr + 6 := by
        have h := getChannelsLoop_count env o token channelCombos w₁
          "toyago.GetProducts"
        rw [h4] at h
        have hlen : channelCombos.length = 6 := rfl
        rw [hlen, hw₁] at h
        exact h
      cases r₂ with
      | ok cs => simp only [h4]; omega
      | error e₂ =>
          cases e₂ with
          | auth =>
              simp only [h4]
              rcases h5 : asyncLogin env o
                  { token := Option.none, setVersion := w₂.setVersion,
                    idx := w₂.idx, tr := w₂.tr } with ⟨r₃, w₄⟩
              have hw₄ : countMethod "toyago.GetProducts" w₄.tr
                  ≤ countMethod "toyago.GetProducts" w.tr + 6 := by
                have h := asyncLogin_count env o
                  { token := Option.none, setVersion := w₂.setVersion,
                    idx := w₂.idx, tr := w₂.tr }
                  "toyago.GetProducts" (by decide) (by decide)
                rw [h5] at h
                dsimp only at h
                omega
              cases r₃ with
              | error e₃ => simp only [h5]; omega
              | ok token₂ =>
                  simp only [h5]
                  have h := getChannelsLoop_count env o token₂ channelCombos w₄
                    "toyago.GetProducts"
                  have hlen : channelCombos.length = 6 := rfl
                  rw [hlen] at h
                  omega
          | api => simp only [h4]; omega
          | conn => simp only [h4]; omega

/-- C2: on a first-attempt auth fault, send_key / get_devices /
get_channels clear the cached token, re-login exactly once and retry
the failed call exactly once, the retry's outcome being final (a second
auth fault propagates with no third attempt); non-auth errors propagate
immediately with a single attempt; and no oracle can make the client
exceed two attempts (twelve `GetProducts` calls for the channel
search). -/
theorem c2_auth_retry_policy :
    ∀ (env : ClientEnv) (o : Oracle) (w : ClientW),
      (∀ sc key : String,
        countMethod "toyago.SetStbCmd" ((asyncSendKey env o sc key w).2.tr)
          ≤ countMethod "toyago.SetStbCmd" w.tr + 2)
      ∧ countMethod "toyago.GetPvrDevices" ((asyncGetDevices env o w).2.tr)
          ≤ countMethod "toyago.GetPvrDevices" w.tr + 2
      ∧ countMethod "toyago.GetProducts" ((asyncGetChannels env o w).2.tr)
          ≤ countMethod "toyago.GetProducts" w.tr + 12
      ∧ (∀ (sc key tk cmd : String) (a sv : PyVal) (tok : String),
          (pyStrip sc == "") = false → normalize_cmd key = some cmd →
          w.token = some tk → (tk == "") = false →
          (env.username == "" || env.password == "") = false →
          classify (o w.idx) "toyago.SetStbCmd" = .error .auth →
          classify (o (w.idx + 1)) "toyago.GetAuth" = .ok a →
          extract_token_from_value a = some tok → (tok == "") = false →
          classify (o (w.idx + 2)) "toyago.SetVersion" = .ok sv →
          asyncSendKey env o sc key w =
            ((match classify (o (w.idx + 3)) "toyago.SetStbCmd" with
              | .ok _ => .ok ()
              | .error e => .error e),
             { token := some tok, setVersion := some (pyStr sv),
               idx := w.idx + 4,
               tr := w.tr ++
                 [.call "toyago.SetStbCmd"
                    [.str env.deviceId, .str (pyStrip sc), .str cmd, .str tk],
                  .call "toyago.GetAuth"
                    [.str env.deviceId, .str env.username, .str env.password],
                  .call "toyago.SetVersion"
                    [.str env.deviceId, .str (env.version ++ "-" ++ env.model),
                     .str tok],
                  .call "toyago.SetStbCmd"
                    [.str env.deviceId, .str (pyStrip sc), .str cmd,
                     .str tok]] }))
      ∧ (∀ (sc key tk cmd : String) (e : ApiErr),
          (pyStrip sc == "") = false → normalize_cmd key = some cmd →
          w.token = some tk → (tk == "") = false →
          e = .api ∨ e = .conn →
          classify (o w.idx) "toyago.SetStbCmd" = .error e →
          asyncSendKey env o sc key w =
            (.error e,
             { token := w.token, setVersion := w.setVersion, idx := w.idx + 1,
               tr := w.tr ++
                 [.call "toyago.SetStbCmd"
                    [.str env.deviceId, .str (pyStrip sc), .str cmd,
                     .str tk]] }))
      ∧ (∀ (tk : String) (a sv : PyVal) (tok : String),
          w.token = some tk → (tk == "") = false →
          (env.username == "" || env.password == "") = false →
          classify (o w.idx) "toyago.GetPvrDevices" = .error .auth →
          classify (o (w.idx + 1)) "toyago.GetAuth" = .ok a →
          extract_token_from_value a = some tok → (tok == "") = false →
          classify (o (w.idx + 2)) "toyago.SetVersion" = .ok sv →
          asyncGetDevices env o w =
            ((match classify (o (w.idx + 3)) "toyago.GetPvrDevices" with
              | .ok v => .ok (parse_devices v)
              | .error e => .error e),
             { token := some tok, setVersion := some (pyStr sv),
               idx := w.idx + 4,
               tr := w.tr ++
                 [.call "toyago.GetPvrDevices" [.str env.deviceId, .str tk],
                  .call "toyago.GetAuth"
                    [.str env.deviceId, .str env.username, .str env.password],
                  .call "toyago.SetVersion"
                    [.str env.deviceId, .str (env.version ++ "-" ++ env.model),
                     .str tok],
                  .call "toyago.GetPvrDevices"
                    [.str env.deviceId, .str tok]] }))
      ∧ (∀ (tk : String) (e : ApiErr),
          w.token = some tk → (tk == "") = false →
          e = .api ∨ e = .conn →
          classify (o w.idx) "toyago.GetPvrDevices" = .error e →
          asyncGetDevices env o w =
            (.error e,
             { token := w.token, setVersion := w.setVersion, idx := w.idx + 1,
               tr := w.tr ++
                 [.call "toyago.GetPvrDevices" [.str env.deviceId, .str tk]] }))
      ∧ (∀ (tk : String) (a sv : PyVal) (tok : String),
          w.token = some tk → (tk == "") = false →
          (env.username == "" || env.password == "") = false →
          classify (o w.idx) "toyago.GetProducts" = .error .auth →
          classify (o (w.idx + 1)) "toyago.GetAuth" = .ok a →
          extract_token_from_value a = some tok → (tok == "") = false →
          classify (o (w.idx + 2)) "toyago.SetVersion" = .ok sv →
          classify (o (w.idx + 3)) "toyago.GetProducts" = .error .auth →
          asyncGetChannels env o w =
            (.error .auth,
             { token := some tok, setVersion := some (pyStr sv),
               idx := w.idx + 4,
               tr := w.tr ++
                 [.call "toyago.GetProducts"
                    (gpParams env tk ("channel_dvb", -1, -1, true)),
                  .call "toyago.GetAuth"
                    [.str env.deviceId, .str env.username, .str env.password],
                  .call "toyago.SetVersion"
                    [.str env.deviceId, .str (env.version ++ "-" ++ env.model),
                     .str tok],
                  .call "toyago.GetProducts"
                    (gpParams env tok ("channel_dvb", -1, -1, true))] }))
      ∧ (∀ (tk : String) (e : ApiErr),
          w.token = some tk → (tk == "") = false →
          e = .api ∨ e = .conn →
          classify (o w.idx) "toyago.GetProducts" = .error e →
          asyncGetChannels env o w =
            (.error e,
             { token := w.token, setVersion := w.setVersion, idx := w.idx + 1,
               tr := w.tr ++
                 [.call "toyago.GetProducts"
                    (gpParams env tk ("channel_dvb", -1, -1, true))] })) := by
  intro env o w
  refine ⟨fun sc key => asyncSendKey_count env o w sc key,
    asyncGetDevices_count env o w,
    asyncGetChannels_count env o w,
    ?_, ?_, ?_, ?_, ?_, ?_⟩
  · intro sc key tk cmd a sv tok hsc hkey hw htk hcred h1 hga hex htok hsv
    exact asyncSendKey_auth_retry env o w sc key tk cmd a sv tok hsc hkey hw
      htk hcred h1 hga hex htok hsv
  · intro sc key tk cmd e hsc hkey hw htk he h1
    exact asyncSendKey_immediate env o w sc key tk cmd e hsc hkey hw htk he h1
  · intro tk a sv tok hw htk hcred h1 hga hex htok hsv
    exact asyncGetDevices_auth_retry env o w tk a sv tok hw htk hcred h1 hga
      hex htok hsv
  · intro tk e hw htk he h1
    exact asyncGetDevices_immediate env o w tk e hw htk he h1
  · intro tk a sv tok hw htk hcred h1 hga hex htok hsv h2
    exact asyncGetChannels_auth_retry env o w tk a sv tok hw htk hcred h1 hga
      hex htok hsv h2
  · intro tk e hw htk he h1
    exact asyncGetChannels_immediate env o w tk e hw htk he h1

/-- Witness for C2: a connection error on the first send propagates
immediately for a concrete client and oracle. -/
theorem c2_auth_retry_policy_witness :
    asyncSendKey ⟨"u", "p", "d", "1.0", "m", 0⟩ (fun _ => TransportRes.protoErr)
        "001" "menu" ⟨some "TK", Option.none, 0, []⟩ =
      (.error .conn,
       { token := some "TK", setVersion := Option.none, idx := 1,
         tr := [.call "toyago.SetStbCmd"
           [.str "d", .str (pyStrip "001"), .str "menu", .str "TK"]] }) := by
  have h := (c2_auth_retry_policy ⟨"u", "p", "d", "1.0", "m", 0⟩
    (fun _ => TransportRes.protoErr) ⟨some "TK", Option.none, 0, []⟩).2.2.2.2.1
    "001" "menu" "TK" "menu" .conn (by decide) (by decide) rfl (by decide)
    (Or.inr rfl) rfl
  simpa using h

/-- The channel search loop realizes the reference first-good-response
search: it stops at the first combination whose response is good,
issues the calls in order, and exhausts the space otherwise. -/
theorem getChannelsLoop_model (env : ClientEnv) (o : Oracle) (token : String) :
    ∀ (combos : List (String × Int × Int × Bool)) (w : ClientW)
      (f : Nat → PyVal),
      (∀ j, j < combos.length →
        o (w.idx + j) = .val (f j) ∧ is_auth_fault (f j) = false) →
      getChannelsLoop env o token combos w =
        ((match (searchModel f combos).1 with
          | some p => .ok p
          | Option.none => .error .api),
         { token := w.token, setVersion := w.setVersion,
           idx := w.idx + (searchModel f combos).2,
           tr := w.tr ++
             gpCalls env token (combos.take (searchModel f combos).2) }) := by
  intro combos
  induction combos with
  | nil =>
      intro w f h
      simp [getChannelsLoop, searchModel, gpCalls]
  | cons c rest ih =>
      intro w f h
      have h0 := h 0 (by simp)
      rw [Nat.add_zero] at h0
      unfold getChannelsLoop callRPC
      rw [h0.1]
      unfold classify
      simp only [h0.2, Bool.false_eq_true, if_false]
      have hshift : ∀ j, j < rest.length →
          o (w.idx + 1 + j) = .val ((fun j => f (j + 1)) j) ∧
          is_auth_fault ((fun j => f (j + 1)) j) = false := by
        intro j hj
        have := h (j + 1) (by simpa using Nat.succ_lt_succ hj)
        rw [show w.idx + (j + 1) = w.idx + 1 + j from by omega] at this
        exact this
      by_cases hx : (extract_products_xml (f 0) == ""
          || extract_products_xml (f 0) == "[object Object]") = true
      · simp only [hx, if_true]
        have hg : goodOf (f 0) = Option.none := by
          unfold goodOf
          simp [hx]
        have ihh := ih { token := w.token, setVersion := w.setVersion, idx := w.idx + 1, tr := w.tr ++ [.call "toyago.GetProducts" (gpParams env token c)] } (fun j => f (j + 1)) hshift
        dsimp only at ihh
        rw [ihh]
        simp only [searchModel, hg]
        simp [gpCalls, List.take_succ_cons, Nat.add_assoc, Nat.add_comm 1]
      · simp only [hx, Bool.false_eq_true, if_false]
        by_cases hp : (parse_channels (extract_products_xml (f 0))).isEmpty = true
        · simp only [hp, if_true]
          have hg : goodOf (f 0) = Option.none := by
            unfold goodOf
            simp only [hx, Bool.false_eq_true, if_false, hp, if_true]
          have ihh := ih { token := w.token, setVersion := w.setVersion, idx := w.idx + 1, tr := w.tr ++ [.call "toyago.GetProducts" (gpParams env token c)] } (fun j => f (j + 1)) hshift
          dsimp only at ihh
          rw [ihh]
          simp only [searchModel, hg]
          simp [gpCalls, List.take_succ_cons, Nat.add_assoc, Nat.add_comm 1]
        · simp only [hp, Bool.false_eq_true, if_false]
          have hg : goodOf (f 0) =
              some (parse_channels (extract_products_xml (f 0))) := by
            unfold goodOf
            simp only [hx, Bool.false_eq_true, if_false, hp, if_true]
          simp only [searchModel, hg]
          simp [gpCalls, List.take_succ_cons]

/-- C3: over the fixed six-combination search space (DVB product type
first, parameter variants in the documented order), the channel fetch
returns the parse of the first combination whose response is non-empty,
not `"[object Object]"`, and parses to a non-empty channel list —
issuing the `GetProducts` calls in exactly that order — and raises the
API error when every combination yields nothing. -/
theorem c3_channels_search :
    ∀ (env : ClientEnv) (o : Oracle) (token : String) (w : ClientW)
      (f : Nat → PyVal),
      (∀ j, j < 6 →
        o (w.idx + j) = .val (f j) ∧ is_auth_fault (f j) = false) →
      getChannelsRPC env o token w =
        ((match (searchModel f channelCombos).1 with
          | some p => .ok p
          | Option.none => .error .api),
         { token := w.token, setVersion := w.setVersion,
           idx := w.idx + (searchModel f channelCombos).2,
           tr := w.tr ++
             gpCalls env token (channelCombos.take (searchModel f channelCombos).2) })
      ∧ channelCombos =
          [("channel_dvb", -1, -1, true), ("channel_dvb", -1, -1, false),
           ("channel_dvb", 0, 1, false), ("channel", -1, -1, true),
           ("channel", -1, -1, false), ("channel", 0, 1, false)]
      ∧ (∀ v p, goodOf v = some p →
          p = parse_channels (extract_products_xml v) ∧ p ≠ [])
      ∧ (∀ v, extract_products_xml v = "" ∨
          extract_products_xml v = "[object Object]" ∨
          parse_channels (extract_products_xml v) = [] →
          goodOf v = Option.none) := by
  intro env o token w f h
  refine ⟨?_, rfl, ?_, ?_⟩
  · exact getChannelsLoop_model env o token channelCombos w f h
  · intro v p hg
    unfold goodOf at hg
    by_cases hx : (extract_products_xml v == ""
        || extract_products_xml v == "[object Object]") = true
    · simp [hx] at hg
    · simp only [hx, Bool.false_eq_true, if_false] at hg
      by_cases hp : (parse_channels (extract_products_xml v)).isEmpty = true
      · simp [hp] at hg
      · simp only [hp, Bool.false_eq_true, if_false, Option.some.injEq] at hg
        subst hg
        exact ⟨rfl, by simpa [List.isEmpty_iff] using hp⟩
  · intro v hv
    unfold goodOf
    rcases hv with hv | hv | hv <;> simp [hv, List.isEmpty_iff]

set_option maxRecDepth 10000 in
/-- Witness for C3: a concrete oracle whose first combination already
yields a parseable channel list stops the search after one call. -/
theorem c3_channels_search_witness :
    getChannelsRPC ⟨"u", "p", "d", "v", "m", 0⟩
        (fun _ => .val (.str "<object type=\"product\" id=\"A\"></object>"))
        "T" ⟨Option.none, Option.none, 0, []⟩ =
      (.ok [⟨"A", Option.none, Option.none, Option.none⟩],
       { token := Option.none, setVersion := Option.none, idx := 0 + 1,
         tr := [] ++ gpCalls ⟨"u", "p", "d", "v", "m", 0⟩ "T"
           (channelCombos.take 1) }) := by
  have h := (c3_channels_search ⟨"u", "p", "d", "v", "m", 0⟩
    (fun _ => .val (.str "<object type=\"product\" id=\"A\"></object>"))
    "T" ⟨Option.none, Option.none, 0, []⟩
    (fun _ => .str "<object type=\"product\" id=\"A\"></object>")
    (fun j hj => ⟨rfl, by
      show is_auth_fault (PyVal.str "<object type=\"product\" id=\"A\"></object>") = false
      decide⟩)).1
  rw [h]
  rw [show searchModel
      (fun _ => PyVal.str "<object type=\"product\" id=\"A\"></object>")
      channelCombos
      = (some [⟨"A", Option.none, Option.none, Option.none⟩], 1) from by decide]

/-- Digits are not whitespace. -/
theorem digit_not_space (d : Char) (h : pyIsDigitChar d = true) :
    pyIsSpace d = false := by
  unfold pyIsDigitChar at h
  unfold pyIsSpace
  simp only [Bool.and_eq_true, decide_eq_true_eq] at h
  simp only [Bool.or_eq_false_iff, decide_eq_false_iff_not]
  have h1 := h.1
  have h2 := h.2
  refine ⟨⟨⟨⟨⟨?_, ?_⟩, ?_⟩, ?_⟩, ?_⟩, ?_⟩ <;>
    intro hc <;> subst hc <;> simp_all

/-- Stripping a one-digit string is the identity. -/
theorem pyStrip_digit (d : Char) (h : pyIsDigitChar d = true) :
    pyStrip (String.mk [d]) = String.mk [d] := by
  unfold pyStrip pyStripL
  simp [digit_not_space d h]

/-- A single digit character passes `normalize_cmd` unchanged. -/
theorem normalize_cmd_digit (d : Char) (h : pyIsDigitChar d = true) :
    normalize_cmd (String.mk [d]) = some (String.mk [d]) := by
  unfold normalize_cmd
  rw [pyStrip_digit d h]
  have hlen : (String.mk [d]).length = 1 := rfl
  have hdig : pyIsDigit (String.mk [d]) = true := by
    simp [pyIsDigit, h]
  simp [hlen, hdig]

/-- One successful send with a cached token: a single traced call. -/
theorem asyncSendKey_ok (env : ClientEnv) (o : Oracle) (w : ClientW)
    (sc key tk cmd : String) (v : PyVal)
    (hsc : (pyStrip sc == "") = false)
    (hkey : normalize_cmd key = some cmd)
    (hw : w.token = some tk) (htk : (tk == "") = false)
    (h1 : classify (o w.idx) "toyago.SetStbCmd" = .ok v) :
    asyncSendKey env o sc key w =
      (.ok (),
       { token := w.token, setVersion := w.setVersion, idx := w.idx + 1,
         tr := w.tr ++
           [.call "toyago.SetStbCmd"
              [.str env.deviceId, .str (pyStrip sc), .str cmd, .str tk]] }) := by
  unfold asyncSendKey
  simp only [hsc, Bool.false_eq_true, if_false, hkey]
  rw [asyncLogin_cached env o w tk hw htk]
  unfold sendKeyRPC callRPC
  dsimp only
  rw [h1]

/-- The digit loop sends one key per digit, in order, with the pause
after each press, consuming one oracle entry per digit. -/
theorem setChannelLoop_ok (env : ClientEnv) (o : Oracle) (sc tk : String)
    (hdelay : 0 < env.keyDelay)
    (hsc : (pyStrip sc == "") = false) (htk : (tk == "") = false) :
    ∀ (ds : List Char) (w : ClientW) (f : Nat → PyVal),
      w.token = some tk →
      (∀ c ∈ ds, pyIsDigitChar c = true) →
      (∀ j, j < ds.length →
        classify (o (w.idx + j)) "toyago.SetStbCmd" = .ok (f j)) →
      setChannelLoop env o sc ds w =
        (.ok (),
         { token := w.token, setVersion := w.setVersion,
           idx := w.idx + ds.length,
           tr := w.tr ++ ds.flatMap (digitEvents env (pyStrip sc) tk) }) := by
  intro ds
  induction ds with
  | nil =>
      intro w f hw hd hcl
      simp [setChannelLoop]
  | cons d rest ih =>
      intro w f hw hd hcl
      have hd0 : pyIsDigitChar d = true := hd d (by simp)
      have hc0 : classify (o w.idx) "toyago.SetStbCmd" = .ok (f 0) := by
        simpa using hcl 0 (by simp)
      unfold setChannelLoop
      rw [asyncSendKey_ok env o w sc (String.mk [d]) tk (String.mk [d]) (f 0)
        hsc (normalize_cmd_digit d hd0) hw htk hc0]
      dsimp only
      rw [if_pos hdelay]
      have ihh := ih
        { token := w.token, setVersion := w.setVersion, idx := w.idx + 1,
          tr := (w.tr ++ [.call "toyago.SetStbCmd" [.str env.deviceId, .str (pyStrip sc), .str (String.mk [d]), .str tk]]) ++ [.sleep env.keyDelay] }
        (fun j => f (j + 1)) hw (fun c hc => hd c (by simp [hc]))
        (fun j hj => by
          have := hcl (j + 1) (by simpa using Nat.succ_lt_succ hj)
          rw [show w.idx + (j + 1) = w.idx + 1 + j from by omega] at this
          exact this)
      dsimp only at ihh
      rw [ihh]
      simp [digitEvents, Nat.add_assoc, Nat.add_comm 1]

/-- C6: set_channel rejects a non-numeric channel (after trimming)
before issuing any remote call — e.g. `"12a"` — and otherwise sends
each digit of the channel as its own key press, left to right, with the
configured positive inter-keystroke delay after each press. -/
theorem c6_set_channel :
    (∀ (env : ClientEnv) (o : Oracle) (sc ch : String) (w : ClientW),
      pyIsDigit (pyStrip ch) = false →
      asyncSetChannel env o sc ch w = (.error .api, w))
    ∧ pyIsDigit (pyStrip "12a") = false
    ∧ (∀ (env : ClientEnv) (o : Oracle) (sc ch : String) (w : ClientW)
        (tk : String) (f : Nat → PyVal),
        0 < env.keyDelay → (pyStrip sc == "") = false →
        (tk == "") = false → w.token = some tk →
        pyIsDigit (pyStrip ch) = true →
        (∀ j, j < (pyStrip ch).data.length →
          classify (o (w.idx + j)) "toyago.SetStbCmd" = .ok (f j)) →
        asyncSetChannel env o sc ch w =
          (.ok (),
           { token := w.token, setVersion := w.setVersion,
             idx := w.idx + (pyStrip ch).data.length,
             tr := w.tr ++
               (pyStrip ch).data.flatMap (digitEvents env (pyStrip sc) tk) })) := by
  refine ⟨?_, by decide, ?_⟩
  · intro env o sc ch w h
    unfold asyncSetChannel
    simp [h]
  · intro env o sc ch w tk f hdelay hsc htk hw hdig hcl
    unfold asyncSetChannel
    simp only [hdig, Bool.not_true, Bool.false_eq_true, if_false]
    have hall : ∀ c ∈ (pyStrip ch).data, pyIsDigitChar c = true := by
      have := hdig
      unfold pyIsDigit at this
      simp only [Bool.and_eq_true, List.all_eq_true] at this
      exact fun c hc => this.2 c hc
    exact setChannelLoop_ok env o sc tk hdelay hsc htk (pyStrip ch).data w f
      hw hall hcl

/-- Witness for C6: the non-numeric channel `"12a"` fails fast for a
concrete client with no trace growth. -/
theorem c6_set_channel_witness :
    asyncSetChannel ⟨"u", "p", "d", "v", "m", 1/4⟩
        (fun _ => TransportRes.protoErr) "001" "12a"
        ⟨some "TK", Option.none, 0, []⟩ =
      (.error .api, ⟨some "TK", Option.none, 0, []⟩) :=
  c6_set_channel.1 ⟨"u", "p", "d", "v", "m", 1/4⟩ (fun _ => TransportRes.protoErr)
    "001" "12a" ⟨some "TK", Option.none, 0, []⟩ (by decide)

/-- A delimiter-free character is consumed into the accumulator. -/
theorem splitDevAux_safe_cons (c : Char) (s acc : List Char)
    (h : safeDevChar c = true) :
    splitDevAux (c :: s) acc = splitDevAux s (acc ++ [c]) := by
  simp only [safeDevChar, Bool.not_eq_true', Bool.or_eq_false_iff,
    decide_eq_false_iff_not] at h
  obtain ⟨⟨⟨h1, h2⟩, h3⟩, h4⟩ := h
  cases s with
  | nil => simp [splitDevAux, h1, h2, h3, h4]
  | cons c2 rest => simp [splitDevAux, h1, h2, h3, h4]

/-- A delimiter-free token is consumed whole. -/
theorem splitDevAux_safe_append (t : List Char) :
    ∀ (s acc : List Char), (∀ c ∈ t, safeDevChar c = true) →
    splitDevAux (t ++ s) acc = splitDevAux s (acc ++ t) := by
  induction t with
  | nil => intro s acc h; simp
  | cons c t ih =>
      intro s acc h
      rw [List.cons_append, splitDevAux_safe_cons c (t ++ s) acc (h c (by simp))]
      rw [ih s (acc ++ [c]) (fun x hx => h x (by simp [hx]))]
      simp

/-- An `=` delimiter flushes the accumulator. -/
theorem splitDevAux_eq_delim (s acc : List Char) :
    splitDevAux ('=' :: s) acc = pushTok acc (splitDevAux s []) := by
  cases s with
  | nil => simp [splitDevAux, pushTok]
  | cons c2 rest => simp [splitDevAux]

/-- A `", "` delimiter flushes the accumulator. -/
theorem splitDevAux_comma_delim (s acc : List Char) :
    splitDevAux (',' :: ' ' :: s) acc = pushTok acc (splitDevAux s []) := by
  simp [splitDevAux]

/-- A record-separator `\x7d\x7b` flushes the accumulator. -/
theorem splitDevAux_braces_delim (s acc : List Char) :
    splitDevAux ('\x7d' :: '\x7b' :: s) acc = pushTok acc (splitDevAux s []) := by
  simp [splitDevAux]

/-- End of input flushes the accumulator. -/
theorem splitDevAux_nil (acc : List Char) :
    splitDevAux [] acc = pushTok acc [] := rfl

/-- A non-empty string has non-empty character data. -/
theorem strData_nonempty (s : String) (h : s ≠ "") : s.data.isEmpty = false := by
  cases s with
  | mk d =>
      cases d with
      | nil => exact absurd rfl h
      | cons c t => rfl

/-- Tokenizing one serialized record yields its six tokens and
continues with the status value glued to the tail. -/
theorem splitDevAux_core (r : String × String × String) (tail : List Char)
    (hsc : devTokOK r.1) (hch : devTokOK r.2.1) :
    splitDevAux (devBlobCore r tail) [] =
      "smartcard".data :: r.1.data :: "chipid".data :: r.2.1.data ::
        "status".data :: splitDevAux (r.2.2.data ++ tail) [] := by
  unfold devBlobCore
  rw [splitDevAux_safe_append "smartcard".data _ [] (by decide)]
  rw [List.nil_append, splitDevAux_eq_delim]
  rw [splitDevAux_safe_append r.1.data _ [] hsc.2]
  rw [List.nil_append, splitDevAux_comma_delim]
  rw [splitDevAux_safe_append "chipid".data _ [] (by decide)]
  rw [List.nil_append, splitDevAux_eq_delim]
  rw [splitDevAux_safe_append r.2.1.data _ [] hch.2]
  rw [List.nil_append, splitDevAux_comma_delim]
  rw [splitDevAux_safe_append "status".data _ [] (by decide)]
  rw [List.nil_append, splitDevAux_eq_delim]
  simp [pushTok, strData_nonempty _ hsc.1, strData_nonempty _ hch.1]

/-- Tokenizing the joined record bodies yields the full token stream. -/
theorem splitDevAux_blob (rs : List (String × String × String))
    (h : ∀ r ∈ rs, devTokOK r.1 ∧ devTokOK r.2.1 ∧ devTokOK r.2.2) :
    splitDevAux (devBlobInner rs) [] = devTokens rs := by
  induction rs with
  | nil => simp [devBlobInner, devTokens, splitDevAux, pushTok]
  | cons r t ih =>
      obtain ⟨hsc, hch, hst⟩ := h r (by simp)
      cases t with
      | nil =>
          unfold devBlobInner
          rw [splitDevAux_core r [] hsc hch]
          rw [splitDevAux_safe_append r.2.2.data [] [] hst.2]
          rw [List.nil_append, splitDevAux_nil]
          simp [pushTok, strData_nonempty _ hst.1, devTokens, devBlobInner]
      | cons r' t' =>
          unfold devBlobInner
          rw [splitDevAux_core r _ hsc hch]
          rw [splitDevAux_safe_append r.2.2.data _ [] hst.2]
          rw [List.nil_append, splitDevAux_braces_delim]
          rw [ih (fun x hx => h x (by simp [hx]))]
          simp [pushTok, strData_nonempty _ hst.1, devTokens]

/-- Walking the token stream reconstructs one device per record: the
third field of each record completes the accumulator, emits the device
and resets. -/
theorem devTokenLoop_records (rs : List (String × String × String)) :
    ∀ key, devTokenLoop (devTokens rs) true key
      Option.none Option.none Option.none = devRecordsParsed rs := by
  induction rs with
  | nil => intro key; simp [devTokens, devTokenLoop, devRecordsParsed]
  | cons r t ih =>
      intro key
      have k1 : ("smartcard".data = "status".data) = False := by decide
      have k2 : ("smartcard".data = "chipid".data) = False := by decide
      have k3 : ("chipid".data = "status".data) = False := by decide
      have k4 : ("chipid".data = "smartcard".data) = False := by decide
      have k5 : ("status".data = "smartcard".data) = False := by decide
      have k6 : ("status".data = "chipid".data) = False := by decide
      simp only [devTokens, devTokenLoop, k1, k2, k3, k4, k5, k6, if_true,
        if_false, eq_self_iff_true]
      simp only [devRecordsParsed, List.map_cons]
      rw [ih "status".data]
      simp [stringMk_data, devRecordsParsed]

/-- Structured parsing of a record list yields one device per record
when every smart card is non-empty. -/
theorem parseDevList_structured (rs : List (String × String × String)) :
    (∀ r ∈ rs, r.1 ≠ "") →
    parseDevList (PyList.ofList (rs.map (fun r =>
      pDict [("smartcard", .str r.1), ("chipid", .str r.2.1),
             ("status", .str r.2.2)]))) = devRecordsParsed rs := by
  induction rs with
  | nil => intro h; simp [PyList.ofList, parseDevList, devRecordsParsed]
  | cons r t ih =>
      intro h
      have hr : r.1 ≠ "" := h r (by simp)
      have hne : (r.1 == "") = false := by simpa using hr
      have iht := ih (fun x hx => h x (by simp [hx]))
      simp only [pDict, PyDict.ofList] at iht
      simp [PyList.ofList, parseDevList, pDict, PyDict.ofList, PyDict.get,
        PyDict.getD, pyTruthy, PyVal.isNone, pyStr, hne, devRecordsParsed,
        iht]

/-- Structured parse of the equivalent keyed response. -/
theorem structured_parse_devices (rs : List (String × String × String))
    (h : ∀ r ∈ rs, r.1 ≠ "") :
    parse_devices (structuredDevRes rs) = devRecordsParsed rs := by
  cases rs with
  | nil =>
      simp [structuredDevRes, pList, PyList.ofList, parse_devices, pyTruthy,
        devRecordsParsed]
  | cons r t =>
      unfold structuredDevRes parse_devices
      simp only [List.map_cons, pList, PyList.ofList, pyTruthy]
      rw [show PyList.ofList (t.map (fun r =>
        pDict [("smartcard", .str r.1), ("chipid", .str r.2.1),
               ("status", .str r.2.2)])) = PyList.ofList (t.map (fun r =>
        pDict [("smartcard", .str r.1), ("chipid", .str r.2.1),
               ("status", .str r.2.2)])) from rfl]
      have := parseDevList_structured (r :: t) h
      simp only [List.map_cons, pList, PyList.ofList] at this
      simpa using this

/-- A brace-wrapped blob has no surrounding whitespace to strip. -/
theorem pyStripL_braces (l : List Char) :
    pyStripL ('\x7b' :: (l ++ ['\x7d'])) = '\x7b' :: (l ++ ['\x7d']) := by
  have h1 : pyIsSpace '\x7b' = false := by decide
  have h2 : pyIsSpace '\x7d' = false := by decide
  simp [pyStripL, h1, h2, List.dropWhile_cons]

/-- A non-empty literal string is truthy. -/
theorem strMk_cons_ne (c : Char) (l : List Char) :
    (String.mk (c :: l) == "") = false := by
  rw [beq_eq_false_iff_ne]
  intro hq
  exact absurd (congrArg String.data hq) (by simp)

/-- Fallback parsing of the serialized legacy blob reconstructs the
record list. -/
theorem fallback_parse_devices (rs : List (String × String × String))
    (h : ∀ r ∈ rs, devTokOK r.1 ∧ devTokOK r.2.1 ∧ devTokOK r.2.2)
    (hne : rs ≠ []) :
    parse_devices (.str (legacyDevBlob rs)) = devRecordsParsed rs := by
  cases rs with
  | nil => exact absurd rfl hne
  | cons r t =>
      have hblob : legacyDevBlob (r :: t) =
          String.mk ('\x7b' :: (devBlobInner (r :: t) ++ ['\x7d'])) := rfl
      rw [hblob]
      unfold parse_devices
      rw [show pyTruthy (.str (String.mk ('\x7b' :: (devBlobInner (r :: t) ++ ['\x7d'])))) = true from by
        simp [pyTruthy, strMk_cons_ne]]
      simp only [Bool.not_true, Bool.false_eq_true, if_false]
      show (match (PyVal.str (String.mk ('\x7b' :: (devBlobInner (r :: t) ++ ['\x7d'])))) with
        | PyVal.list xs => parseDevList xs
        | other =>
            let raw := pyStripL (pyStr other).data
            let raw :=
              if (raw.head? = some '[' && raw.getLast? = some ']')
                  || (raw.head? = some '\x7b' && raw.getLast? = some '\x7d') then
                (raw.drop 1).dropLast
              else raw
            let parts := splitDevAux raw []
            devTokenLoop parts true [] Option.none Option.none Option.none) =
        devRecordsParsed (r :: t)
      dsimp only
      rw [show pyStr (.str (String.mk ('\x7b' :: (devBlobInner (r :: t) ++ ['\x7d'])))) = String.mk ('\x7b' :: (devBlobInner (r :: t) ++ ['\x7d'])) from rfl]
      rw [show (String.mk ('\x7b' :: (devBlobInner (r :: t) ++ ['\x7d']))).data = '\x7b' :: (devBlobInner (r :: t) ++ ['\x7d']) from rfl]
      rw [pyStripL_braces]
      have hlast : ('\x7b' :: (devBlobInner (r :: t) ++ ['\x7d'])).getLast?
          = some '\x7d' := by
        rw [show '\x7b' :: (devBlobInner (r :: t) ++ ['\x7d'])
            = ('\x7b' :: devBlobInner (r :: t)) ++ ['\x7d'] from by simp]
        exact List.getLast?_concat _
      simp only [List.head?_cons, hlast]
      norm_num
      rw [splitDevAux_blob (r :: t) h]
      rw [devTokenLoop_records (r :: t) []]

/-- C4: for record lists serialized in the legacy delimiter grammar
(non-empty fields free of delimiter characters), the fallback
string-splitting path reconstructs exactly the device list that the
structured keyed-entry path produces for the equivalent structured
response. -/
theorem c4_legacy_device_refinement :
    ∀ rs : List (String × String × String),
      (∀ r ∈ rs, devTokOK r.1 ∧ devTokOK r.2.1 ∧ devTokOK r.2.2) →
      parse_devices (.str (legacyDevBlob rs)) = parse_devices (structuredDevRes rs)
      ∧ parse_devices (.str (legacyDevBlob rs)) = devRecordsParsed rs := by
  intro rs h
  have hsc : ∀ r ∈ rs, r.1 ≠ "" := fun r hr => ((h r hr).1).1
  cases rs with
  | nil =>
      refine ⟨?_, ?_⟩ <;>
        simp [legacyDevBlob, structuredDevRes, parse_devices, pyTruthy, pList,
          PyList.ofList, devRecordsParsed]
  | cons r t =>
      have hfb := fallback_parse_devices (r :: t) h (by simp)
      have hst := structured_parse_devices (r :: t) hsc
      exact ⟨hfb.trans hst.symm, hfb⟩

set_option maxRecDepth 4000 in
/-- Witness for C4 at a concrete two-record blob. -/
theorem c4_legacy_device_refinement_witness :
    parse_devices (.str (legacyDevBlob [("001", "ABC", "1"), ("002", "DEF", "0")]))
      = parse_devices (structuredDevRes [("001", "ABC", "1"), ("002", "DEF", "0")]) :=
  (c4_legacy_device_refinement [("001", "ABC", "1"), ("002", "DEF", "0")]
    (by
      intro r hr
      fin_cases hr <;>
        exact ⟨⟨by decide, by decide⟩, ⟨by decide, by decide⟩,
          ⟨by decide, by decide⟩⟩)).1

/-- Witness for C10: empty credentials fail login and leave the state
untouched for a concrete client. -/
theorem c10_login_caches_only_on_success_witness :
    loginM ⟨"", "p", "d", "v", "m", 0⟩ (fun _ => TransportRes.protoErr)
        ⟨Option.none, Option.none, 0, []⟩ =
      (.error .auth, ⟨Option.none, Option.none, 0, []⟩) :=
  (c10_login_caches_only_on_success ⟨"", "p", "d", "v", "m", 0⟩
    (fun _ => TransportRes.protoErr) ⟨Option.none, Option.none, 0, []⟩).2.1
    (Or.inl rfl)
